import Mathlib

/-!
# Verification of the fixed-width file handler

Shallow embedding of `src/record_parser.py`, `src/fixed_width_file.py` and
`src/fixed_width_file_handler.py`.  Lines are modelled as `List Char`
(`Str`); the Python string primitives used by the code (`strip`, slicing,
`zfill`, `ljust`, `int(...)`, `str(...)`) are embedded below, followed by
the record codec (`RecordParser`) and the mutator (`FixedWidthFile`).
-/

set_option maxRecDepth 4000

abbrev Str := List Char

/-- Python whitespace test used by `str.strip()` (ASCII fragment). -/
def isWS (c : Char) : Bool := c.isWhitespace

/-- Remove leading whitespace (left part of Python `str.strip()`). -/
def stripLeading (s : Str) : Str := s.dropWhile isWS

/-- Remove trailing whitespace (right part of Python `str.strip()`). -/
def stripTrailing (s : Str) : Str := (s.reverse.dropWhile isWS).reverse

/-- Python `s.strip()`: drop whitespace from both ends. -/
def pyStrip (s : Str) : Str := stripLeading (stripTrailing s)

/-- Python pySlice `s[a:b]` for `0 ≤ a ≤ b`. -/
def pySlice (s : Str) (a b : Nat) : Str := (s.drop a).take (b - a)

/-- Python `s.ljust(w)`: pad on the right with spaces to width `w`. -/
def ljust (s : Str) (w : Nat) : Str := s ++ List.replicate (w - s.length) ' '

/-- Python `s.zfill(w)`: pad on the left with `'0'` to width `w`,
keeping a leading sign character in front of the padding. -/
def zfill (s : Str) (w : Nat) : Str :=
  if w ≤ s.length then s
  else
    match s with
    | [] => List.replicate w '0'
    | c :: rest =>
      if c = '+' ∨ c = '-' then c :: (List.replicate (w - s.length) '0' ++ rest)
      else List.replicate (w - s.length) '0' ++ s

/-- Numeric value of a decimal digit character. -/
def digitVal (c : Char) : Nat := c.toNat - 48

/-- Value of a digit string read in base 10 (Python `int` on digits). -/
def digitsValNat (s : Str) : Nat := s.foldl (fun a c => a * 10 + digitVal c) 0

/-- All characters are decimal digits. -/
def allDigits (s : Str) : Bool := s.all (·.isDigit)

/-- Fuelled decimal rendering of a natural number (Python `str`). -/
def natToStrAux : Nat → Nat → Str
  | 0, _ => []
  | fuel + 1, n =>
    if n < 10 then [Nat.digitChar n]
    else natToStrAux fuel (n / 10) ++ [Nat.digitChar (n % 10)]

/-- Python `str(n)` for a natural number. -/
def natToStr (n : Nat) : Str := natToStrAux (n + 1) n

/-- Python `str(i)` for an integer. -/
def intToStr (i : Int) : Str :=
  if i < 0 then '-' :: natToStr i.natAbs else natToStr i.natAbs

/-- Python `int(s)` on a nonempty digit string with optional sign,
ignoring surrounding whitespace; `none` models a raised `ValueError`. -/
def strToInt? (s : Str) : Option Int :=
  let t := pyStrip s
  if t = [] then none
  else if t.head? = some '-' then
    if t.tail ≠ [] ∧ allDigits t.tail then some (-(digitsValNat t.tail : Int))
    else none
  else if t.head? = some '+' then
    if t.tail ≠ [] ∧ allDigits t.tail then some (digitsValNat t.tail : Int)
    else none
  else if allDigits t then some (digitsValNat t : Int)
  else none

/-- `int(decimal.Decimal(s) * 100)` for a plain decimal literal
(optional sign, digits, optional point and fraction digits): the amount in
minor units, truncated toward zero.  `none` models a raised
`decimal.InvalidOperation`.  Exponent forms, which never arise in this
program's call sites, are not modelled. -/
def decimalCents? (s : Str) : Option Int :=
  let t := pyStrip s
  let sign : Bool := match t with | '-' :: _ => true | _ => false
  let u : Str := match t with
    | '-' :: r => r
    | '+' :: r => r
    | _ => t
  let ip := u.takeWhile (·.isDigit)
  let rest := u.dropWhile (·.isDigit)
  let mag? : Option Nat :=
    match rest with
    | [] => if ip = [] then none else some (digitsValNat ip * 100)
    | '.' :: fp =>
      if allDigits fp ∧ (ip ≠ [] ∨ fp ≠ []) then
        some (digitsValNat ip * 100 + digitVal (fp.getD 0 '0') * 10
              + digitVal (fp.getD 1 '0'))
      else none
    | _ => none
  mag?.map (fun m => if sign then -(m : Int) else (m : Int))

/-! ## Record codec (`src/record_parser.py`) -/

/-- The three record kinds of `RecordParser.FIELD_DEFINITIONS`. -/
inductive RecordType
  | HEADER
  | TRANSACTION
  | FOOTER
deriving DecidableEq, Repr

open RecordType

/-- Name of a record type, as stored under the `"type"` key by
`parse_line`. -/
def typeName : RecordType → Str
  | HEADER => "HEADER".toList
  | TRANSACTION => "TRANSACTION".toList
  | FOOTER => "FOOTER".toList

/-- `RecordParser.FIELD_DEFINITIONS`: ordered field descriptors
`(name, start, end)` per record kind. -/
def FIELD_DEFINITIONS : RecordType → List (String × Nat × Nat)
  | HEADER =>
    [("field_id", 0, 2), ("name", 2, 30), ("surname", 30, 60),
     ("patronymic", 60, 90), ("address", 90, 118)]
  | TRANSACTION =>
    [("field_id", 0, 2), ("counter", 2, 8), ("amount", 8, 20),
     ("currency", 20, 23), ("reserved", 23, 118)]
  | FOOTER =>
    [("field_id", 0, 2), ("total_count", 2, 8), ("control_sum", 8, 20),
     ("reserved", 20, 118)]

/-- `RecordParser.RECORD_LENGTH`. -/
def RECORD_LENGTH : Nat := 120

/-- `RecordParser.ALLOWED_CURRENCIES`. -/
def ALLOWED_CURRENCIES : List Str := ["USD".toList, "EUR".toList, "GBP".toList]

/-- A parsed record: the Python dict, as an insertion-ordered
association list from field name to string value. -/
abbrev Data := List (String × Str)

/-- Python `data.get(k, default)`. -/
def dictGetD (d : Data) (k : String) (dflt : Str) : Str :=
  ((d.find? (fun p => p.1 == k)).map (·.2)).getD dflt

/-- Python `data[k] = v`: replace the entry in place (keeping dict order)
or append it when the key is new. -/
def dictSet (d : Data) (k : String) (v : Str) : Data :=
  if d.any (fun p => p.1 == k) then
    d.map (fun p => if p.1 == k then (k, v) else p)
  else d ++ [(k, v)]

/-- `RecordParser.get_record_type`: classify a line by its first two
characters; `none` models the raised `ValueError`. -/
def get_record_type (line : Str) : Option RecordType :=
  let field_id := pySlice line 0 2
  if field_id = "01".toList then some HEADER
  else if field_id = "02".toList then some TRANSACTION
  else if field_id = "03".toList then some FOOTER
  else none

/-- `RecordParser.parse_line`: `{"type": record_type}` followed by each
field sliced out of the line and stripped. -/
def parse_line (line : Str) (rt : RecordType) : Data :=
  ("type", typeName rt) ::
    (FIELD_DEFINITIONS rt).map
      (fun f => (f.1, pyStrip (pySlice line f.2.1 f.2.2)))

/-- `RecordParser.format_line`: concatenate, in descriptor order, each
field's value — `zfill`ed for `amount`, `ljust`ed otherwise. -/
def format_line (d : Data) (rt : RecordType) : Str :=
  ((FIELD_DEFINITIONS rt).map
    (fun f =>
      let v := dictGetD d f.1 []
      if f.1 = "amount" then zfill v (f.2.2 - f.2.1)
      else ljust v (f.2.2 - f.2.1))).flatten

/-- `FixedWidthFile.validate_data`: `false` models the raised
`ValueError` for a transaction whose currency is not allowed. -/
def validate_data (d : Data) (rt : RecordType) : Bool :=
  !(rt = TRANSACTION && !(ALLOWED_CURRENCIES.contains (dictGetD d "currency" [])))

/-! ## File-level operations (`src/fixed_width_file.py`) -/

/-- The two characters `self.parser.format_line(...) + "\x5c\x5cn"` appends
in the Python source: a literal backslash followed by `n` (the source
writes the escaped two-character string, not a newline). -/
def bsn : Str := ['\x5c', 'n']

/-- `line.startswith("02")` as used by `initialize_transaction_counter`. -/
def startsWith02 (line : Str) : Bool := line.take 2 = ['0', '2']

/-- `"03" == lines[i][:2].strip()` as used by `find_footer`. -/
def isFooterLine (line : Str) : Bool := pyStrip (pySlice line 0 2) = ['0', '3']

/-- `FixedWidthFile.initialize_transaction_counter`: the number of lines
starting with `"02"`. -/
def initialize_transaction_counter (lines : List Str) : Nat :=
  (lines.filter startsWith02).length

/-- On-disk lines plus the cached instance counter
`self.transaction_counter`. -/
structure FWFile where
  lines : List Str
  counter : Nat
deriving DecidableEq, Repr

/-- `FixedWidthFile.__init__`: read the lines and cache the count of
`"02"` lines. -/
def mkFile (lines : List Str) : FWFile :=
  { lines := lines, counter := initialize_transaction_counter lines }

/-- Index (from the front) and raw line of the last footer line, i.e. the
first hit of `find_footer`'s backward scan. -/
def find_footer_aux : List Str → Option (Nat × Str)
  | [] => none
  | l :: ls =>
    match find_footer_aux ls with
    | some (i, f) => some (i + 1, f)
    | none => if isFooterLine l then some (0, l) else none

/-- `FixedWidthFile.find_footer`: scan from the end for a line whose
2-character prefix strips to `"03"`; `none` models the raised
`ValueError`. -/
def find_footer (lines : List Str) : Option (Nat × Data) :=
  (find_footer_aux lines).map (fun p => (p.1, parse_line p.2 FOOTER))

/-- Python `list.insert(i, x)` (for `i ≤ len`). -/
def insertAt (i : Nat) (x : α) (l : List α) : List α :=
  l.take i ++ x :: l.drop i

/-- `FixedWidthFile.update_footer`: rewrite the footer line with
`total_count = str(count).zfill(6)` and
`control_sum = str(int(old) + cents).zfill(12)`.  `none` models a raised
`ValueError` (no footer, or unparseable control sum).  The Python
`int(amount * 100)` on the exact `decimal.Decimal` argument is passed in
as the integer `cents`. -/
def update_footer (lines : List Str) (count : Nat) (cents : Int) :
    Option (List Str) :=
  match find_footer lines with
  | none => none
  | some (i, fdata) =>
    let fdata := dictSet fdata "total_count" (zfill (natToStr count) 6)
    match strToInt? (dictGetD fdata "control_sum" []) with
    | none => none
    | some cur =>
      some (lines.set i
        (format_line (dictSet fdata "control_sum"
          (zfill (intToStr (cur + cents)) 12)) FOOTER ++ bsn))

/-- The dict literal built by `FixedWidthFile.add_transaction` for the new
transaction (`str(int(decimal.Decimal(amount) * 100))` is passed in as
`cents`). -/
def newTransactionData (counter : Nat) (cents : Int) (currency : Str) : Data :=
  [("field_id", "02".toList),
   ("counter", zfill (natToStr counter) 6),
   ("amount", zfill (intToStr cents) 12),
   ("currency", currency),
   ("reserved", List.replicate 95 ' ')]

/-- Outcome of `add_transaction`: normal success, the silent
footer-missing early return, or a propagated exception. -/
inductive AddOutcome
  | success
  | noFooter
  | exn
deriving DecidableEq, Repr

/-- `FixedWidthFile.add_transaction`: build the new transaction line,
insert it before the footer, update the footer, write, and bump the
cached counter.  On `noFooter` the method returns with nothing written;
on `exn` (unparseable footer control sum) the raised error also leaves
the file and the counter unchanged, since the write comes last. -/
def add_transaction (st : FWFile) (cents : Int) (currency : Str) :
    FWFile × AddOutcome :=
  let newData := newTransactionData (st.counter + 1) cents currency
  match find_footer st.lines with
  | none => (st, .noFooter)
  | some (fi, _) =>
    let newLine := format_line newData TRANSACTION ++ bsn
    let lines' := insertAt fi newLine st.lines
    match update_footer lines' (st.counter + 1) cents with
    | none => (st, .exn)
    | some lines'' => ({ lines := lines'', counter := st.counter + 1 }, .success)

/-- `FixedWidthFile.matches_transaction_counter`. -/
def matches_transaction_counter (d : Data) (tc : Option Str) : Bool :=
  match tc with
  | none => true
  | some t => zfill (dictGetD d "counter" []) 6 = zfill t 6

/-- Outcome of `set_value`: returned `True`, returned `False` (no match,
nothing written), or an exception raised after the write. -/
inductive SetOutcome
  | trueOk
  | falseNoop
  | exn
deriving DecidableEq, Repr

/-- Index of the first line whose parse (as the requested record type)
matches the transaction counter — the line `set_value`'s loop updates. -/
def findTargetIdx (lines : List Str) (rt : RecordType) (tc : Option Str) :
    Option Nat :=
  lines.findIdx? (fun line => matches_transaction_counter (parse_line line rt) tc)

/-- `FixedWidthFile.set_value`: parse each line as the requested type,
update the first line matching the counter, write the lines, then call
`decimal.Decimal(new_value)` and `update_footer` on the in-memory list —
whose result is discarded (the write has already happened) and whose
failure raises after the write (`exn`).  The returned `FWFile` holds the
persisted lines; `self.transaction_counter` is never changed. -/
def set_value (st : FWFile) (rt : RecordType) (fieldName : String) (v : Str)
    (tc : Option Str) : FWFile × SetOutcome :=
  match findTargetIdx st.lines rt tc with
  | none => (st, .falseNoop)
  | some i =>
    let v' := if fieldName = "amount" then zfill v 12 else v
    let line := st.lines.getD i []
    let lines' := st.lines.set i
      (format_line (dictSet (parse_line line rt) fieldName v') rt ++ bsn)
    ({ st with lines := lines' },
     match decimalCents? v' with
     | none => .exn
     | some c =>
       match update_footer lines' st.counter c with
       | none => .exn
       | some _ => .trueOk)

/-- Errors raised by the read path. -/
inductive ReadErr
  | invalidLength
  | invalidType
  | invalidCurrency
deriving DecidableEq, Repr

/-- `FixedWidthFile.process_content`: strip each line, reject when the
stripped length differs from `RECORD_LENGTH`, classify, parse, validate
the currency, and count the transactions into the running instance
counter. -/
def process_content (content : List Str) (counter : Nat) :
    Except ReadErr (List Data × Nat) :=
  match content with
  | [] => .ok ([], counter)
  | line :: rest =>
    let clean := pyStrip line
    if clean.length ≠ RECORD_LENGTH then .error .invalidLength
    else
      match get_record_type clean with
      | none => .error .invalidType
      | some rt =>
        let d := parse_line clean rt
        if !(validate_data d rt) then .error .invalidCurrency
        else
          match process_content rest
              (counter + if rt = TRANSACTION then 1 else 0) with
          | .error e => .error e
          | .ok (ds, c) => .ok (d :: ds, c)

/-! ## Concrete files used to settle the claims

`exLines` is the scenario file of the specification: one HEADER, one
TRANSACTION (counter 000001, amount 000000012345, currency USD), one
FOOTER (total_count 000001, control_sum 000000012345), each line 120
characters with space padding. -/

def exHeader : Str := '0' :: '1' :: List.replicate 118 ' '

def exTxn : Str := "02000001000000012345USD".toList ++ List.replicate 97 ' '

def exFooter : Str := "03000001000000012345".toList ++ List.replicate 100 ' '

def exLines : List Str := [exHeader, exTxn, exFooter]

/-- A 120-character TRANSACTION line with no leading or trailing
whitespace (the read path accepts it verbatim) whose amount field is
space-padded rather than zero-padded. -/
def spacedAmountTxn : Str :=
  "02000001         123USD".toList ++ List.replicate 95 'r' ++ "xx".toList

/-- A 120-character TRANSACTION line with no leading or trailing
whitespace, fully canonical fields. -/
def denseTxn : Str :=
  "02000001000000012345USD".toList ++ List.replicate 95 'r' ++ "xx".toList

/-- A transaction line carrying the on-disk counter `000005`. -/
def gapTxn : Str := "02000005000000012345USD".toList ++ List.replicate 97 ' '

/-- Like `exLines` but the single transaction carries the on-disk counter
`000005`. -/
def gapLines : List Str := [exHeader, gapTxn, exFooter]

/-! ## Derived definitions used to state the claims -/

/-- The new transaction line `add_transaction` builds (formatted data plus
the two appended characters). -/
def newTxnLine (c : Nat) (cents : Int) (cur : Str) : Str :=
  format_line (newTransactionData c cents cur) TRANSACTION ++ bsn

/-- The footer data after `update_footer`'s two field assignments. -/
def updFooterData (fd : Data) (count : Nat) (s : Int) : Data :=
  dictSet (dictSet fd "total_count" (zfill (natToStr count) 6))
    "control_sum" (zfill (intToStr s) 12)

/-- The rewritten footer line `update_footer` stores. -/
def newFooterLine (fd : Data) (count : Nat) (s : Int) : Str :=
  format_line (updFooterData fd count s) FOOTER ++ bsn

/-- Spec observation: the control sum read back from the footer. -/
def footerControlSum? (lines : List Str) : Option Int :=
  (find_footer lines).bind fun p => strToInt? (dictGetD p.2 "control_sum" [])

/-- Spec observation: the total count read back from the footer. -/
def footerTotalCount? (lines : List Str) : Option Int :=
  (find_footer lines).bind fun p => strToInt? (dictGetD p.2 "total_count" [])

/-- Spec observation: sum of the amounts of a batch of adds, minor units. -/
def opsSum (ops : List (Int × Str)) : Int := (ops.map (·.1)).sum

/-- Folding `add_transaction` over a batch of `(amount, currency)` calls. -/
def addMany (st : FWFile) (ops : List (Int × Str)) : FWFile :=
  ops.foldl (fun s op => (add_transaction s op.1 op.2).1) st

/-- Every call of the batch returned success. -/
def addsSucceed : FWFile → List (Int × Str) → Prop
  | _, [] => True
  | st, op :: rest =>
    (add_transaction st op.1 op.2).2 = AddOutcome.success ∧
      addsSucceed (add_transaction st op.1 op.2).1 rest

/-- Well-formedness used for the mutation-path claims: the footer is the
last line (and the only footer-classified line is irrelevant, since
`find_footer` scans from the end), its control sum parses to `s`, its
total count agrees with the number of `02`-lines, and the cached counter
is the number of `02`-lines. -/
def GoodState (st : FWFile) (s : Int) : Prop :=
  ∃ pre f, st.lines = pre ++ [f] ∧ isFooterLine f = true ∧
    strToInt? (dictGetD (parse_line f FOOTER) "control_sum" []) = some s ∧
    strToInt? (dictGetD (parse_line f FOOTER) "total_count" []) =
      some (initialize_transaction_counter st.lines : Int) ∧
    st.counter = initialize_transaction_counter st.lines

/-! ## Sanity evaluations of the primitives -/

example : pyStrip "  ab ".toList = "ab".toList := by decide
example : zfill "50".toList 12 = "000000000050".toList := by decide
example : zfill "-5".toList 4 = "-005".toList := by decide
example : natToStr 1230 = "1230".toList := by decide
example : strToInt? "000000012345".toList = some 12345 := by decide
example : decimalCents? "50".toList = some 5000 := by decide
example : decimalCents? "100.00".toList = some 10000 := by decide
example : decimalCents? "GBP".toList = none := by decide
example : decimalCents? "-3.759".toList = some (-375) := by decide


/-! ## Properties of the string primitives -/

theorem dropWhile_eq_self_of_head (p : Char → Bool) (l : Str)
    (h : ∀ c, l.head? = some c → p c = false) : l.dropWhile p = l := by
  cases l with
  | nil => rfl
  | cons a t => simp [List.dropWhile_cons, h a rfl]

theorem head?_dropWhile_not (p : Char → Bool) (l : Str) :
    ∀ c, (l.dropWhile p).head? = some c → p c = false := by
  induction l with
  | nil => intro c h; simp at h
  | cons a t ih =>
    intro c h
    rw [List.dropWhile_cons] at h
    by_cases hp : p a
    · simp [hp] at h; exact ih c h
    · simp [hp] at h; subst h; simpa using hp

theorem getLast?_dropWhile_of_ne_nil (p : Char → Bool) (l : Str)
    (h : l.dropWhile p ≠ []) : (l.dropWhile p).getLast? = l.getLast? := by
  induction l with
  | nil => simp at h
  | cons a t ih =>
    rw [List.dropWhile_cons]
    by_cases hp : p a
    · rw [List.dropWhile_cons, if_pos hp] at h
      have ht : t ≠ [] := by
        intro he; rw [he] at h; simp at h
      rw [if_pos hp, ih h]
      cases t with
      | nil => exact absurd rfl ht
      | cons b u => exact (List.getLast?_cons_cons ..).symm
    · rw [if_neg hp]

theorem stripLeading_idem (s : Str) : stripLeading (stripLeading s) = stripLeading s :=
  dropWhile_eq_self_of_head _ _ (head?_dropWhile_not _ _)

theorem stripTrailing_idem (s : Str) : stripTrailing (stripTrailing s) = stripTrailing s := by
  unfold stripTrailing
  rw [List.reverse_reverse, dropWhile_eq_self_of_head _ _ (head?_dropWhile_not _ _)]

theorem stripTrailing_eq_self_of_getLast (s : Str)
    (h : ∀ c, s.getLast? = some c → isWS c = false) : stripTrailing s = s := by
  unfold stripTrailing
  rw [dropWhile_eq_self_of_head _ _ (by simpa [List.head?_reverse] using h),
    List.reverse_reverse]

theorem getLast?_stripTrailing_not (s : Str) :
    ∀ c, (stripTrailing s).getLast? = some c → isWS c = false := by
  intro c h
  unfold stripTrailing at h
  rw [List.getLast?_reverse] at h
  exact head?_dropWhile_not _ _ c h

theorem stripTrailing_stripLeading (s : Str)
    (h : stripTrailing s = s) : stripTrailing (stripLeading s) = stripLeading s := by
  by_cases hnil : stripLeading s = []
  · rw [hnil]; rfl
  · apply stripTrailing_eq_self_of_getLast
    intro c hc
    unfold stripLeading at hnil hc
    rw [getLast?_dropWhile_of_ne_nil _ _ hnil] at hc
    have := getLast?_stripTrailing_not s
    rw [h] at this
    exact this c hc

theorem pyStrip_idem (s : Str) : pyStrip (pyStrip s) = pyStrip s := by
  unfold pyStrip
  rw [stripTrailing_stripLeading _ (stripTrailing_idem s), stripLeading_idem]

theorem dropWhile_replicate_space (n : Nat) :
    List.dropWhile isWS (List.replicate n ' ') = ([] : Str) := by
  induction n with
  | zero => rfl
  | succ n ih => rw [List.replicate_succ, List.dropWhile_cons]; simp [isWS, ih]

theorem stripTrailing_append_spaces (s : Str) (n : Nat) :
    stripTrailing (s ++ List.replicate n ' ') = stripTrailing s := by
  unfold stripTrailing
  rw [List.reverse_append, List.reverse_replicate, List.dropWhile_append,
    dropWhile_replicate_space]
  simp

theorem pyStrip_append_spaces (s : Str) (n : Nat) :
    pyStrip (s ++ List.replicate n ' ') = pyStrip s := by
  unfold pyStrip
  rw [stripTrailing_append_spaces]

theorem pyStrip_length_le (s : Str) : (pyStrip s).length ≤ s.length := by
  unfold pyStrip stripLeading stripTrailing
  calc (List.dropWhile isWS ((List.dropWhile isWS s.reverse).reverse)).length
      ≤ ((List.dropWhile isWS s.reverse).reverse).length :=
        (List.dropWhile_suffix isWS).length_le
    _ ≤ s.length := by
        rw [List.length_reverse]
        calc (List.dropWhile isWS s.reverse).length ≤ s.reverse.length :=
              (List.dropWhile_suffix isWS).length_le
          _ = s.length := List.length_reverse s

theorem pyStrip_of_noWS (s : Str) (h : s.all (fun c => !isWS c)) : pyStrip s = s := by
  have hpt : ∀ (l : Str), l.all (fun c => !isWS c) → List.dropWhile isWS l = l := by
    intro l hl
    apply dropWhile_eq_self_of_head
    intro c hc
    cases l with
    | nil => simp at hc
    | cons a t =>
      simp only [List.head?_cons, Option.some.injEq] at hc
      subst hc
      simp [List.all_cons] at hl
      simpa using hl.1
  unfold pyStrip stripLeading stripTrailing
  rw [hpt s.reverse (by simpa [List.all_reverse] using h), List.reverse_reverse,
    hpt s h]

theorem ljust_length (s : Str) (w : Nat) : (ljust s w).length = max w s.length := by
  unfold ljust
  simp [List.length_append, List.length_replicate]
  omega

theorem ljust_of_le (s : Str) (w : Nat) (h : w ≤ s.length) : ljust s w = s := by
  unfold ljust
  rw [Nat.sub_eq_zero_of_le h]
  simp

theorem zfill_of_le (s : Str) (w : Nat) (h : w ≤ s.length) : zfill s w = s := by
  unfold zfill
  rw [if_pos h]

theorem zfill_length (s : Str) (w : Nat) : (zfill s w).length = max w s.length := by
  by_cases h : w ≤ s.length
  · rw [zfill_of_le s w h]; omega
  · cases s with
    | nil =>
      unfold zfill
      rw [if_neg h]
      simp
    | cons c rest =>
      unfold zfill
      rw [if_neg h]
      show (if c = '+' ∨ c = '-' then
          c :: (List.replicate (w - (c :: rest).length) '0' ++ rest)
        else List.replicate (w - (c :: rest).length) '0' ++ c :: rest).length
        = max w (c :: rest).length
      split <;> simp <;> omega

/-! ## Decimal rendering and parsing round-trip -/

theorem digitChar_spec (n : Nat) (h : n < 10) :
    (Nat.digitChar n).isDigit = true ∧ isWS (Nat.digitChar n) = false ∧
      Nat.digitChar n ≠ '-' ∧ Nat.digitChar n ≠ '+' ∧
      digitVal (Nat.digitChar n) = n := by
  interval_cases n <;> exact ⟨by decide, by decide, by decide, by decide, by decide⟩

theorem digitsValNat_append_singleton (s : Str) (c : Char) :
    digitsValNat (s ++ [c]) = digitsValNat s * 10 + digitVal c := by
  unfold digitsValNat
  rw [List.foldl_append]
  rfl

theorem foldl_digits_zeros (k : Nat) :
    List.foldl (fun a c => a * 10 + digitVal c) 0 (List.replicate k '0') = 0 := by
  induction k with
  | zero => rfl
  | succ k ih => rw [List.replicate_succ, List.foldl_cons]; simpa using ih

theorem digitsValNat_zeros_append (k : Nat) (s : Str) :
    digitsValNat (List.replicate k '0' ++ s) = digitsValNat s := by
  unfold digitsValNat
  rw [List.foldl_append, foldl_digits_zeros]

/-- Core specification of the fuelled decimal renderer. -/
theorem natToStrAux_spec : ∀ (fuel n : Nat), 0 < fuel → n < 10 ^ fuel →
    natToStrAux fuel n ≠ [] ∧ allDigits (natToStrAux fuel n) = true ∧
      (natToStrAux fuel n).all (fun c => !isWS c) = true ∧
      digitsValNat (natToStrAux fuel n) = n ∧
      (∀ c, (natToStrAux fuel n).head? = some c → c ≠ '-' ∧ c ≠ '+') := by
  intro fuel
  induction fuel with
  | zero => intro n h0; omega
  | succ f ih =>
    intro n _ h
    by_cases hn : n < 10
    · have hd := digitChar_spec n hn
      unfold natToStrAux
      rw [if_pos hn]
      refine ⟨by simp, ?_, ?_, ?_, ?_⟩
      · simp [allDigits, hd.1]
      · simp [hd.2.1]
      · simpa [digitsValNat, digitVal] using hd.2.2.2.2
      · intro c hc
        simp at hc
        subst hc
        exact ⟨hd.2.2.1, hd.2.2.2.1⟩
    · have hdiv : n / 10 < 10 ^ f := by
        have h10 : (0 : Nat) < 10 := by norm_num
        rw [Nat.div_lt_iff_lt_mul h10]
        calc n < 10 ^ (f + 1) := h
          _ = 10 ^ f * 10 := by ring
      have hf : 0 < f := by
        rcases Nat.eq_zero_or_pos f with hf0 | hf
        · rw [hf0] at h; simp at h; omega
        · exact hf
      have hm := digitChar_spec (n % 10) (Nat.mod_lt n (by norm_num))
      obtain ⟨hne, hdig, hws, hval, hhead⟩ := ih (n / 10) hf hdiv
      unfold natToStrAux
      rw [if_neg hn]
      refine ⟨by simp, ?_, ?_, ?_, ?_⟩
      · simp [allDigits] at hdig ⊢
        exact ⟨hdig, hm.1⟩
      · simp at hws ⊢
        exact ⟨hws, by simpa using hm.2.1⟩
      · rw [digitsValNat_append_singleton, hval, hm.2.2.2.2]
        omega
      · intro c hc
        cases he : natToStrAux f (n / 10) with
        | nil => exact absurd he hne
        | cons a t =>
          rw [he] at hc
          simp at hc
          subst hc
          exact hhead a (by rw [he]; rfl)

theorem natToStrAux_length : ∀ (fuel : Nat), ∀ (n k : Nat), n < 10 ^ fuel →
    n < 10 ^ k → 0 < k → (natToStrAux fuel n).length ≤ k := by
  intro fuel
  induction fuel with
  | zero => intro n k _ _ _; simp [natToStrAux]
  | succ f ih =>
    intro n k h hk hkpos
    by_cases hn : n < 10
    · unfold natToStrAux
      rw [if_pos hn]
      simpa using hkpos
    · have hdiv : n / 10 < 10 ^ f := by
        rw [Nat.div_lt_iff_lt_mul (by norm_num : (0:Nat) < 10)]
        calc n < 10 ^ (f + 1) := h
          _ = 10 ^ f * 10 := by ring
      have hk2 : 2 ≤ k := by
        by_contra hlt
        have : k = 1 := by omega
        subst this
        simp at hk
        omega
      have hdivk : n / 10 < 10 ^ (k - 1) := by
        rw [Nat.div_lt_iff_lt_mul (by norm_num : (0:Nat) < 10)]
        calc n < 10 ^ k := hk
          _ = 10 ^ (k - 1) * 10 := by
            rw [← Nat.pow_succ]
            congr 1
            omega
      unfold natToStrAux
      rw [if_neg hn]
      have := ih (n / 10) (k - 1) hdiv hdivk (by omega)
      simp [List.length_append]
      omega

theorem n_lt_pow_self (n : Nat) : n < 10 ^ (n + 1) := by
  calc n < 10 ^ n := Nat.lt_pow_self (by norm_num) n
    _ ≤ 10 ^ (n + 1) := Nat.pow_le_pow_right (by norm_num) (by omega)

theorem natToStr_spec (n : Nat) :
    natToStr n ≠ [] ∧ allDigits (natToStr n) = true ∧
      (natToStr n).all (fun c => !isWS c) = true ∧
      digitsValNat (natToStr n) = n ∧
      (∀ c, (natToStr n).head? = some c → c ≠ '-' ∧ c ≠ '+') :=
  natToStrAux_spec (n + 1) n (by omega) (n_lt_pow_self n)

theorem natToStr_length_le (n k : Nat) (h : n < 10 ^ k) (hk : 0 < k) :
    (natToStr n).length ≤ k :=
  natToStrAux_length (n + 1) n k (n_lt_pow_self n) h hk

theorem noWS_replicate_zero (k : Nat) :
    (List.replicate k '0').all (fun c => !isWS c) = true := by
  induction k with
  | zero => rfl
  | succ k ih => rw [List.replicate_succ, List.all_cons, ih]; decide

theorem allDigits_replicate_zero (k : Nat) :
    allDigits (List.replicate k '0') = true := by
  unfold allDigits
  induction k with
  | zero => rfl
  | succ k ih => rw [List.replicate_succ, List.all_cons, ih]; decide

/-- `zfill` on a string that does not begin with a sign character. -/
theorem zfill_not_sign (s : Str) (w : Nat) (hne : s ≠ [])
    (hhead : ∀ c, s.head? = some c → c ≠ '-' ∧ c ≠ '+') :
    zfill s w = List.replicate (w - s.length) '0' ++ s := by
  by_cases h : w ≤ s.length
  · rw [zfill_of_le _ _ h, Nat.sub_eq_zero_of_le h]
    rfl
  · cases s with
    | nil => exact absurd rfl hne
    | cons c rest =>
      have hc := hhead c rfl
      show (if w ≤ (c :: rest).length then c :: rest
        else if c = '+' ∨ c = '-' then
          c :: (List.replicate (w - (c :: rest).length) '0' ++ rest)
        else List.replicate (w - (c :: rest).length) '0' ++ c :: rest) = _
      rw [if_neg h, if_neg (by
        rintro (h1 | h1)
        · exact hc.2 h1
        · exact hc.1 h1)]

/-- `zfill` on a string beginning with a minus sign. -/
theorem zfill_neg_head (rest : Str) (w : Nat) (h : ¬w ≤ rest.length + 1) :
    zfill ('-' :: rest) w =
      '-' :: (List.replicate (w - (rest.length + 1)) '0' ++ rest) := by
  show (if w ≤ ('-' :: rest).length then '-' :: rest
    else if ('-' : Char) = '+' ∨ ('-' : Char) = '-' then
      '-' :: (List.replicate (w - ('-' :: rest).length) '0' ++ rest)
    else List.replicate (w - ('-' :: rest).length) '0' ++ '-' :: rest) = _
  rw [if_neg (by simpa using h), if_pos (Or.inr rfl)]
  simp

theorem strToInt?_of_digits (s : Str) (hne : s ≠ []) (hdig : allDigits s = true)
    (hws : s.all (fun c => !isWS c) = true)
    (hhead : ∀ c, s.head? = some c → c ≠ '-' ∧ c ≠ '+') :
    strToInt? s = some (digitsValNat s : Int) := by
  unfold strToInt?
  rw [pyStrip_of_noWS s hws]
  cases s with
  | nil => exact absurd rfl hne
  | cons c rest =>
    have hc := hhead c rfl
    rw [if_neg (by simp), if_neg (by simp [hc.1]), if_neg (by simp [hc.2]),
      if_pos hdig]

theorem strToInt?_neg_digits (rest : Str) (hne : rest ≠ [])
    (hdig : allDigits rest = true)
    (hws : rest.all (fun c => !isWS c) = true) :
    strToInt? ('-' :: rest) = some (-(digitsValNat rest : Int)) := by
  unfold strToInt?
  rw [pyStrip_of_noWS ('-' :: rest) (by rw [List.all_cons, hws]; decide)]
  rw [if_neg (by simp), if_pos (by simp), if_pos (by simpa using ⟨hne, hdig⟩)]
  rfl

theorem zeros_natToStr_facts (k n : Nat) :
    (List.replicate k '0' ++ natToStr n) ≠ [] ∧
      allDigits (List.replicate k '0' ++ natToStr n) = true ∧
      (List.replicate k '0' ++ natToStr n).all (fun c => !isWS c) = true ∧
      digitsValNat (List.replicate k '0' ++ natToStr n) = n ∧
      (∀ c, (List.replicate k '0' ++ natToStr n).head? = some c →
        c ≠ '-' ∧ c ≠ '+') := by
  obtain ⟨hne, hdig, hws, hval, hhead⟩ := natToStr_spec n
  refine ⟨by simp [hne], ?_, ?_, ?_, ?_⟩
  · unfold allDigits at hdig ⊢
    rw [List.all_append, hdig]
    have hz := allDigits_replicate_zero k
    unfold allDigits at hz
    rw [hz]
    rfl
  · rw [List.all_append, hws, noWS_replicate_zero k]
    rfl
  · rw [digitsValNat_zeros_append, hval]
  · intro c hc
    cases k with
    | zero => exact hhead c (by simpa using hc)
    | succ j =>
      rw [List.replicate_succ] at hc
      simp at hc
      subst hc
      exact ⟨by decide, by decide⟩

/-- `int(str(i).zfill(w)) == i`: parsing back a zero-filled rendering. -/
theorem strToInt?_zfill_intToStr (i : Int) (w : Nat) :
    strToInt? (zfill (intToStr i) w) = some i := by
  by_cases hi : i < 0
  · have habs : (i.natAbs : Int) = -i := by omega
    unfold intToStr
    rw [if_pos hi]
    obtain ⟨hne, hdig, hws, hval, _⟩ := natToStr_spec i.natAbs
    by_cases h : w ≤ (natToStr i.natAbs).length + 1
    · rw [zfill_of_le _ _ (by simpa using h),
        strToInt?_neg_digits _ hne hdig hws, hval, habs]
      simp
    · rw [zfill_neg_head _ _ h]
      obtain ⟨hne', hdig', hws', hval', _⟩ :=
        zeros_natToStr_facts (w - ((natToStr i.natAbs).length + 1)) i.natAbs
      rw [strToInt?_neg_digits _ hne' hdig' hws', hval', habs]
      simp
  · have habs : (i.natAbs : Int) = i := by omega
    unfold intToStr
    rw [if_neg hi]
    obtain ⟨hne, _, _, _, hhead⟩ := natToStr_spec i.natAbs
    rw [zfill_not_sign _ _ hne hhead]
    obtain ⟨hne', hdig', hws', hval', hhead'⟩ :=
      zeros_natToStr_facts (w - (natToStr i.natAbs).length) i.natAbs
    rw [strToInt?_of_digits _ hne' hdig' hws' hhead', hval', habs]

/-- The zero-filled rendering of an integer contains no whitespace. -/
theorem noWS_zfill_intToStr (i : Int) (w : Nat) :
    (zfill (intToStr i) w).all (fun c => !isWS c) = true := by
  by_cases hi : i < 0
  · unfold intToStr
    rw [if_pos hi]
    obtain ⟨hne, _, hws, _, _⟩ := natToStr_spec i.natAbs
    by_cases h : w ≤ (natToStr i.natAbs).length + 1
    · rw [zfill_of_le _ _ (by simpa using h), List.all_cons, hws]
      decide
    · rw [zfill_neg_head _ _ h, List.all_cons,
        (zeros_natToStr_facts (w - ((natToStr i.natAbs).length + 1)) i.natAbs).2.2.1]
      decide
  · unfold intToStr
    rw [if_neg hi]
    obtain ⟨hne, _, _, _, hhead⟩ := natToStr_spec i.natAbs
    rw [zfill_not_sign _ _ hne hhead]
    exact (zeros_natToStr_facts _ _).2.2.1

/-- `str(c)` of a natural-valued integer is `natToStr c`. -/
theorem intToStr_ofNat (n : Nat) : intToStr (n : Int) = natToStr n := by
  unfold intToStr
  rw [if_neg (by omega)]
  congr 1

/-- The zero-filled rendering reaches exactly the requested width whenever
the value has at most that many digits. -/
theorem zfill_intToStr_length (i : Int) (w : Nat) (hw : 0 < w)
    (hlo : -(10 ^ (w - 1) : Int) < i) (hhi : i < 10 ^ w) :
    (zfill (intToStr i) w).length = w := by
  rw [zfill_length]
  have hlen : (intToStr i).length ≤ w := by
    by_cases hi : i < 0
    · unfold intToStr
      rw [if_pos hi]
      have hub : i.natAbs < 10 ^ (w - 1) := by
        have h10 : ((10 ^ (w - 1) : Nat) : Int) = (10 : Int) ^ (w - 1) := by
          push_cast
          ring
        omega
      by_cases hw1 : 0 < w - 1
      · have := natToStr_length_le i.natAbs (w - 1) hub hw1
        simp only [List.length_cons]
        omega
      · have hw1' : w = 1 := by omega
        subst hw1'
        have h0 : i.natAbs = 0 := by simpa using hub
        omega
    · unfold intToStr
      rw [if_neg hi]
      apply natToStr_length_le
      · have h10 : ((10 ^ w : Nat) : Int) = (10 : Int) ^ w := by push_cast; ring
        omega
      · exact hw
  omega

/-! ## Slicing a line built from fixed-width chunks -/

theorem pySlice_append_shift (u v : Str) (a b : Nat) (h : u.length ≤ a) :
    pySlice (u ++ v) a b = pySlice v (a - u.length) (b - u.length) := by
  unfold pySlice
  have hd : (u ++ v).drop a = v.drop (a - u.length) := by
    conv_lhs => rw [show a = u.length + (a - u.length) from by omega]
    exact List.drop_append _
  rw [hd]
  congr 1
  omega

theorem pySlice_front (u v : Str) (b : Nat) (h : b ≤ u.length) :
    pySlice (u ++ v) 0 b = u.take b := by
  unfold pySlice
  rw [List.drop_zero, Nat.sub_zero, List.take_append_of_le_length h]

theorem pySlice_chunk (u v : Str) (w : Nat) (h : u.length = w) :
    pySlice (u ++ v) 0 w = u := by
  rw [pySlice_front u v w (by omega), ← h, List.take_length]

theorem pyStrip_pySlice_length_le (line : Str) (a b : Nat) :
    (pyStrip (pySlice line a b)).length ≤ b - a := by
  calc (pyStrip (pySlice line a b)).length
      ≤ (pySlice line a b).length := pyStrip_length_le _
    _ ≤ b - a := by
        unfold pySlice
        rw [List.length_take]
        exact min_le_left _ _

theorem chunk_len_ljust (v : Str) (w : Nat) (h : v.length ≤ w) :
    (ljust v w).length = w := by
  rw [ljust_length]
  omega

theorem pyStrip_ljust_pyStrip (x : Str) (w : Nat) :
    pyStrip (ljust (pyStrip x) w) = pyStrip x := by
  unfold ljust
  rw [pyStrip_append_spaces, pyStrip_idem]

/-- Parsing a TRANSACTION line assembled from chunks of the schema's
exact widths recovers the stripped chunks, whatever trails after
position 118. -/
theorem parse_chunks_TRANSACTION (c1 c2 c3 c4 c5 tail : Str)
    (h1 : c1.length = 2) (h2 : c2.length = 6) (h3 : c3.length = 12)
    (h4 : c4.length = 3) (h5 : c5.length = 95) :
    parse_line (c1 ++ (c2 ++ (c3 ++ (c4 ++ (c5 ++ tail))))) TRANSACTION =
      [("type", typeName TRANSACTION), ("field_id", pyStrip c1),
       ("counter", pyStrip c2), ("amount", pyStrip c3),
       ("currency", pyStrip c4), ("reserved", pyStrip c5)] := by
  have e1 : pySlice (c1 ++ (c2 ++ (c3 ++ (c4 ++ (c5 ++ tail))))) 0 2 = c1 :=
    pySlice_chunk _ _ 2 h1
  have e2 : pySlice (c1 ++ (c2 ++ (c3 ++ (c4 ++ (c5 ++ tail))))) 2 8 = c2 := by
    rw [pySlice_append_shift _ _ 2 8 (by omega), h1]
    exact pySlice_chunk _ _ 6 h2
  have e3 : pySlice (c1 ++ (c2 ++ (c3 ++ (c4 ++ (c5 ++ tail))))) 8 20 = c3 := by
    rw [pySlice_append_shift _ _ 8 20 (by omega), h1,
      pySlice_append_shift _ _ 6 18 (by omega), h2]
    exact pySlice_chunk _ _ 12 h3
  have e4 : pySlice (c1 ++ (c2 ++ (c3 ++ (c4 ++ (c5 ++ tail))))) 20 23 = c4 := by
    rw [pySlice_append_shift _ _ 20 23 (by omega), h1,
      pySlice_append_shift _ _ 18 21 (by omega), h2,
      pySlice_append_shift _ _ 12 15 (by omega), h3]
    exact pySlice_chunk _ _ 3 h4
  have e5 : pySlice (c1 ++ (c2 ++ (c3 ++ (c4 ++ (c5 ++ tail))))) 23 118 = c5 := by
    rw [pySlice_append_shift _ _ 23 118 (by omega), h1,
      pySlice_append_shift _ _ 21 116 (by omega), h2,
      pySlice_append_shift _ _ 15 110 (by omega), h3,
      pySlice_append_shift _ _ 3 98 (by omega), h4]
    exact pySlice_chunk _ _ 95 h5
  unfold parse_line
  simp only [FIELD_DEFINITIONS, List.map]
  rw [e1, e2, e3, e4, e5]

/-- Parsing a HEADER line assembled from chunks of the schema's exact
widths recovers the stripped chunks. -/
theorem parse_chunks_HEADER (c1 c2 c3 c4 c5 tail : Str)
    (h1 : c1.length = 2) (h2 : c2.length = 28) (h3 : c3.length = 30)
    (h4 : c4.length = 30) (h5 : c5.length = 28) :
    parse_line (c1 ++ (c2 ++ (c3 ++ (c4 ++ (c5 ++ tail))))) HEADER =
      [("type", typeName HEADER), ("field_id", pyStrip c1),
       ("name", pyStrip c2), ("surname", pyStrip c3),
       ("patronymic", pyStrip c4), ("address", pyStrip c5)] := by
  have e1 : pySlice (c1 ++ (c2 ++ (c3 ++ (c4 ++ (c5 ++ tail))))) 0 2 = c1 :=
    pySlice_chunk _ _ 2 h1
  have e2 : pySlice (c1 ++ (c2 ++ (c3 ++ (c4 ++ (c5 ++ tail))))) 2 30 = c2 := by
    rw [pySlice_append_shift _ _ 2 30 (by omega), h1]
    exact pySlice_chunk _ _ 28 h2
  have e3 : pySlice (c1 ++ (c2 ++ (c3 ++ (c4 ++ (c5 ++ tail))))) 30 60 = c3 := by
    rw [pySlice_append_shift _ _ 30 60 (by omega), h1,
      pySlice_append_shift _ _ 28 58 (by omega), h2]
    exact pySlice_chunk _ _ 30 h3
  have e4 : pySlice (c1 ++ (c2 ++ (c3 ++ (c4 ++ (c5 ++ tail))))) 60 90 = c4 := by
    rw [pySlice_append_shift _ _ 60 90 (by omega), h1,
      pySlice_append_shift _ _ 58 88 (by omega), h2,
      pySlice_append_shift _ _ 30 60 (by omega), h3]
    exact pySlice_chunk _ _ 30 h4
  have e5 : pySlice (c1 ++ (c2 ++ (c3 ++ (c4 ++ (c5 ++ tail))))) 90 118 = c5 := by
    rw [pySlice_append_shift _ _ 90 118 (by omega), h1,
      pySlice_append_shift _ _ 88 116 (by omega), h2,
      pySlice_append_shift _ _ 60 88 (by omega), h3,
      pySlice_append_shift _ _ 30 58 (by omega), h4]
    exact pySlice_chunk _ _ 28 h5
  unfold parse_line
  simp only [FIELD_DEFINITIONS, List.map]
  rw [e1, e2, e3, e4, e5]

/-- Parsing a FOOTER line assembled from chunks of the schema's exact
widths recovers the stripped chunks. -/
theorem parse_chunks_FOOTER (c1 c2 c3 c4 tail : Str)
    (h1 : c1.length = 2) (h2 : c2.length = 6) (h3 : c3.length = 12)
    (h4 : c4.length = 98) :
    parse_line (c1 ++ (c2 ++ (c3 ++ (c4 ++ tail)))) FOOTER =
      [("type", typeName FOOTER), ("field_id", pyStrip c1),
       ("total_count", pyStrip c2), ("control_sum", pyStrip c3),
       ("reserved", pyStrip c4)] := by
  have e1 : pySlice (c1 ++ (c2 ++ (c3 ++ (c4 ++ tail)))) 0 2 = c1 :=
    pySlice_chunk _ _ 2 h1
  have e2 : pySlice (c1 ++ (c2 ++ (c3 ++ (c4 ++ tail)))) 2 8 = c2 := by
    rw [pySlice_append_shift _ _ 2 8 (by omega), h1]
    exact pySlice_chunk _ _ 6 h2
  have e3 : pySlice (c1 ++ (c2 ++ (c3 ++ (c4 ++ tail)))) 8 20 = c3 := by
    rw [pySlice_append_shift _ _ 8 20 (by omega), h1,
      pySlice_append_shift _ _ 6 18 (by omega), h2]
    exact pySlice_chunk _ _ 12 h3
  have e4 : pySlice (c1 ++ (c2 ++ (c3 ++ (c4 ++ tail)))) 20 118 = c4 := by
    rw [pySlice_append_shift _ _ 20 118 (by omega), h1,
      pySlice_append_shift _ _ 18 116 (by omega), h2,
      pySlice_append_shift _ _ 12 110 (by omega), h3]
    exact pySlice_chunk _ _ 98 h4
  unfold parse_line
  simp only [FIELD_DEFINITIONS, List.map]
  rw [e1, e2, e3, e4]

/-! ## `format_line` after `parse_line` -/

theorem format_parse_TRANSACTION (line : Str) :
    format_line (parse_line line TRANSACTION) TRANSACTION =
      ljust (pyStrip (pySlice line 0 2)) 2 ++
      (ljust (pyStrip (pySlice line 2 8)) 6 ++
      (zfill (pyStrip (pySlice line 8 20)) 12 ++
      (ljust (pyStrip (pySlice line 20 23)) 3 ++
      (ljust (pyStrip (pySlice line 23 118)) 95 ++ [])))) := rfl

theorem format_parse_HEADER (line : Str) :
    format_line (parse_line line HEADER) HEADER =
      ljust (pyStrip (pySlice line 0 2)) 2 ++
      (ljust (pyStrip (pySlice line 2 30)) 28 ++
      (ljust (pyStrip (pySlice line 30 60)) 30 ++
      (ljust (pyStrip (pySlice line 60 90)) 30 ++
      (ljust (pyStrip (pySlice line 90 118)) 28 ++ [])))) := rfl

theorem format_parse_FOOTER (line : Str) :
    format_line (parse_line line FOOTER) FOOTER =
      ljust (pyStrip (pySlice line 0 2)) 2 ++
      (ljust (pyStrip (pySlice line 2 8)) 6 ++
      (ljust (pyStrip (pySlice line 8 20)) 12 ++
      (ljust (pyStrip (pySlice line 20 118)) 98 ++ []))) := rfl

theorem roundtrip_TRANSACTION (line : Str)
    (hamt : (pyStrip (pySlice line 8 20)).length = 12) :
    parse_line (format_line (parse_line line TRANSACTION) TRANSACTION)
      TRANSACTION = parse_line line TRANSACTION := by
  rw [format_parse_TRANSACTION, zfill_of_le _ _ (le_of_eq hamt.symm),
    parse_chunks_TRANSACTION _ _ _ _ _ []
      (chunk_len_ljust _ 2 (pyStrip_pySlice_length_le line 0 2))
      (chunk_len_ljust _ 6 (pyStrip_pySlice_length_le line 2 8))
      hamt
      (chunk_len_ljust _ 3 (pyStrip_pySlice_length_le line 20 23))
      (chunk_len_ljust _ 95 (pyStrip_pySlice_length_le line 23 118))]
  simp only [pyStrip_ljust_pyStrip, pyStrip_idem]
  unfold parse_line
  simp only [FIELD_DEFINITIONS, List.map]

theorem roundtrip_HEADER (line : Str) :
    parse_line (format_line (parse_line line HEADER) HEADER) HEADER =
      parse_line line HEADER := by
  rw [format_parse_HEADER,
    parse_chunks_HEADER _ _ _ _ _ []
      (chunk_len_ljust _ 2 (pyStrip_pySlice_length_le line 0 2))
      (chunk_len_ljust _ 28 (pyStrip_pySlice_length_le line 2 30))
      (chunk_len_ljust _ 30 (pyStrip_pySlice_length_le line 30 60))
      (chunk_len_ljust _ 30 (pyStrip_pySlice_length_le line 60 90))
      (chunk_len_ljust _ 28 (pyStrip_pySlice_length_le line 90 118))]
  simp only [pyStrip_ljust_pyStrip]
  unfold parse_line
  simp only [FIELD_DEFINITIONS, List.map]

theorem roundtrip_FOOTER (line : Str) :
    parse_line (format_line (parse_line line FOOTER) FOOTER) FOOTER =
      parse_line line FOOTER := by
  rw [format_parse_FOOTER,
    parse_chunks_FOOTER _ _ _ _ []
      (chunk_len_ljust _ 2 (pyStrip_pySlice_length_le line 0 2))
      (chunk_len_ljust _ 6 (pyStrip_pySlice_length_le line 2 8))
      (chunk_len_ljust _ 12 (pyStrip_pySlice_length_le line 8 20))
      (chunk_len_ljust _ 98 (pyStrip_pySlice_length_le line 20 118))]
  simp only [pyStrip_ljust_pyStrip]
  unfold parse_line
  simp only [FIELD_DEFINITIONS, List.map]

/-! ## Dictionary and list helper lemmas -/

theorem format_data_TRANSACTION (d : Data) :
    format_line d TRANSACTION =
      ljust (dictGetD d "field_id" []) 2 ++
      (ljust (dictGetD d "counter" []) 6 ++
      (zfill (dictGetD d "amount" []) 12 ++
      (ljust (dictGetD d "currency" []) 3 ++
      (ljust (dictGetD d "reserved" []) 95 ++ [])))) := rfl

theorem format_data_FOOTER (d : Data) :
    format_line d FOOTER =
      ljust (dictGetD d "field_id" []) 2 ++
      (ljust (dictGetD d "total_count" []) 6 ++
      (ljust (dictGetD d "control_sum" []) 12 ++
      (ljust (dictGetD d "reserved" []) 98 ++ []))) := rfl

theorem format_data_HEADER (d : Data) :
    format_line d HEADER =
      ljust (dictGetD d "field_id" []) 2 ++
      (ljust (dictGetD d "name" []) 28 ++
      (ljust (dictGetD d "surname" []) 30 ++
      (ljust (dictGetD d "patronymic" []) 30 ++
      (ljust (dictGetD d "address" []) 28 ++ [])))) := rfl

theorem find?_map_replace (d : Data) (k : String) (v : Str)
    (h : d.any (fun p => p.1 == k) = true) :
    (d.map (fun p => if p.1 == k then (k, v) else p)).find?
      (fun p => p.1 == k) = some (k, v) := by
  induction d with
  | nil => simp at h
  | cons p t ih =>
    rw [List.map_cons]
    by_cases hp : (p.1 == k) = true
    · rw [if_pos hp, List.find?_cons_of_pos _ (by simp)]
    · rw [if_neg hp, List.find?_cons_of_neg _ (by simpa using hp)]
      apply ih
      rw [List.any_cons] at h
      simpa [hp] using h

theorem dictGetD_set_same (d : Data) (k : String) (v : Str) (dflt : Str) :
    dictGetD (dictSet d k v) k dflt = v := by
  unfold dictSet
  by_cases h : d.any (fun p => p.1 == k)
  · rw [if_pos h]
    unfold dictGetD
    rw [find?_map_replace d k v h]
    rfl
  · rw [if_neg h]
    unfold dictGetD
    rw [List.find?_append]
    have hnone : List.find? (fun p => p.1 == k) d = none := by
      rw [List.find?_eq_none]
      intro x hx
      have hfalse : (d.any fun p => p.1 == k) = false := Bool.eq_false_iff.mpr h
      rw [List.any_eq_false] at hfalse
      exact hfalse x hx
    rw [hnone, List.find?_cons_of_pos _ (by simp)]
    rfl

theorem dictGetD_map_replace_other (d : Data) (k : String) (v : Str)
    (k' : String) (dflt : Str) (h : k' ≠ k) :
    dictGetD (d.map (fun p => if p.1 == k then (k, v) else p)) k' dflt =
      dictGetD d k' dflt := by
  induction d with
  | nil => rfl
  | cons p t ih =>
    rw [List.map_cons]
    unfold dictGetD
    by_cases hp : (p.1 == k) = true
    · have hpk : p.1 = k := eq_of_beq hp
      have e1 : List.find? (fun q => q.1 == k')
          ((k, v) :: t.map (fun q => if q.1 == k then (k, v) else q)) =
          List.find? (fun q => q.1 == k')
            (t.map (fun q => if q.1 == k then (k, v) else q)) :=
        List.find?_cons_of_neg _
          (by simp [beq_eq_false_iff_ne.mpr (Ne.symm h)])
      have e2 : List.find? (fun q => q.1 == k') (p :: t) =
          List.find? (fun q => q.1 == k') t :=
        List.find?_cons_of_neg _
          (by rw [hpk]; simp [beq_eq_false_iff_ne.mpr (Ne.symm h)])
      rw [if_pos hp, e1, e2]
      exact ih
    · rw [if_neg hp]
      by_cases hq : (p.1 == k') = true
      · have e1 : List.find? (fun q => q.1 == k')
            (p :: t.map (fun q => if q.1 == k then (k, v) else q)) = some p :=
          List.find?_cons_of_pos _ hq
        have e2 : List.find? (fun q => q.1 == k') (p :: t) = some p :=
          List.find?_cons_of_pos _ hq
        rw [e1, e2]
      · have e1 : List.find? (fun q => q.1 == k')
            (p :: t.map (fun q => if q.1 == k then (k, v) else q)) =
            List.find? (fun q => q.1 == k')
              (t.map (fun q => if q.1 == k then (k, v) else q)) :=
          List.find?_cons_of_neg _ (by simpa using hq)
        have e2 : List.find? (fun q => q.1 == k') (p :: t) =
            List.find? (fun q => q.1 == k') t :=
          List.find?_cons_of_neg _ (by simpa using hq)
        rw [e1, e2]
        exact ih

theorem dictGetD_set_other (d : Data) (k : String) (v : Str) (k' : String)
    (dflt : Str) (h : k' ≠ k) :
    dictGetD (dictSet d k v) k' dflt = dictGetD d k' dflt := by
  unfold dictSet
  by_cases ha : d.any (fun p => p.1 == k)
  · rw [if_pos ha]
    exact dictGetD_map_replace_other d k v k' dflt h
  · rw [if_neg ha]
    unfold dictGetD
    rw [List.find?_append]
    have hone : List.find? (fun p => p.1 == k') [(k, v)] = none := by
      simp [beq_eq_false_iff_ne.mpr (fun he => h he.symm)]
    rw [hone]
    cases List.find? (fun p => p.1 == k') d <;> rfl

theorem pyStrip_prefix_stripTrailing (s : Str) : stripTrailing s <+: s := by
  obtain ⟨t, ht⟩ := List.dropWhile_suffix (l := s.reverse) isWS
  exact ⟨t.reverse, by
    unfold stripTrailing
    rw [← List.reverse_append, ht, List.reverse_reverse]⟩

theorem pyStrip_within (s : Str) : pyStrip s <:+: s := by
  have h1 : pyStrip s <:+ stripTrailing s := List.dropWhile_suffix isWS
  exact List.IsInfix.trans ( List.IsSuffix.isInfix h1)
    ( List.IsPrefix.isInfix (pyStrip_prefix_stripTrailing s))

/-- A string no longer than its own strip equals the strip. -/
theorem eq_pyStrip_of_length_le (s : Str) (h : s.length ≤ (pyStrip s).length) :
    s = pyStrip s :=
  ((pyStrip_within s).eq_of_length_le h).symm

/-- A footer line literally begins with `03`. -/
theorem isFooterLine_take2 (f : Str) (h : isFooterLine f = true) :
    f.take 2 = ['0', '3'] := by
  unfold isFooterLine at h
  rw [decide_eq_true_iff] at h
  have hsl : pySlice f 0 2 = f.take 2 := by
    unfold pySlice
    rw [List.drop_zero]
  rw [hsl] at h
  have hlen : (f.take 2).length ≤ 2 := by
    rw [List.length_take]
    exact min_le_left _ _
  have := eq_pyStrip_of_length_le (f.take 2) (by rw [h]; simpa using hlen)
  rw [this, h]

theorem set_append_len (pre post : List Str) (l x : Str) :
    (pre ++ l :: post).set pre.length x = pre ++ x :: post := by
  induction pre with
  | nil => rfl
  | cons a t ih => simpa using ih

theorem getD_append_len (pre post : List Str) (l : Str) :
    (pre ++ l :: post).getD pre.length [] = l := by
  induction pre with
  | nil => rfl
  | cons a t ih => simpa using ih

theorem insertAt_append_len (pre post : List Str) (l x : Str) :
    insertAt pre.length x (pre ++ l :: post) = pre ++ x :: l :: post := by
  unfold insertAt
  rw [List.take_left, List.drop_left]

/-! ## Locating the footer and the `set_value` target -/

theorem find_footer_aux_append_last (pre : List Str) (f : Str)
    (h : isFooterLine f = true) :
    find_footer_aux (pre ++ [f]) = some (pre.length, f) := by
  induction pre with
  | nil => simp [find_footer_aux, h]
  | cons a t ih => simp [find_footer_aux, ih]

theorem find_footer_append_last (pre : List Str) (f : Str)
    (h : isFooterLine f = true) :
    find_footer (pre ++ [f]) = some (pre.length, parse_line f FOOTER) := by
  unfold find_footer
  rw [find_footer_aux_append_last pre f h]
  rfl

theorem findTargetIdx_none (lines : List Str) (rt : RecordType) (tc : Option Str)
    (h : ∀ l ∈ lines, matches_transaction_counter (parse_line l rt) tc = false) :
    findTargetIdx lines rt tc = none := by
  unfold findTargetIdx
  induction lines with
  | nil => rfl
  | cons a t ih =>
    rw [List.findIdx?_cons, if_neg (by simp [h a (by simp)]), List.findIdx?_succ,
      ih (fun l hl => h l (by simp [hl]))]
    rfl

theorem findTargetIdx_first (pre : List Str) (l : Str) (post : List Str)
    (rt : RecordType) (tc : Option Str)
    (hpre : ∀ x ∈ pre, matches_transaction_counter (parse_line x rt) tc = false)
    (hl : matches_transaction_counter (parse_line l rt) tc = true) :
    findTargetIdx (pre ++ l :: post) rt tc = some pre.length := by
  unfold findTargetIdx
  induction pre with
  | nil =>
    rw [List.nil_append, List.findIdx?_cons, if_pos hl]
    rfl
  | cons a t ih =>
    rw [List.cons_append, List.findIdx?_cons,
      if_neg (by simp [hpre a (by simp)]), List.findIdx?_succ,
      ih (fun x hx => hpre x (by simp [hx]))]
    rfl

/-! ## Evaluation lemmas for `set_value`, `update_footer`, `add_transaction` -/

theorem set_value_found (st : FWFile) (rt : RecordType) (fn : String) (v : Str)
    (tc : Option Str) (i : Nat)
    (h : findTargetIdx st.lines rt tc = some i) :
    set_value st rt fn v tc =
      ({ st with lines := (st.lines.set i
          (format_line (dictSet (parse_line (st.lines.getD i []) rt) fn
            (if fn = "amount" then zfill v 12 else v)) rt ++ bsn)) },
       match decimalCents? (if fn = "amount" then zfill v 12 else v) with
       | none => SetOutcome.exn
       | some c =>
         match update_footer (st.lines.set i
             (format_line (dictSet (parse_line (st.lines.getD i []) rt) fn
               (if fn = "amount" then zfill v 12 else v)) rt ++ bsn))
             st.counter c with
         | none => SetOutcome.exn
         | some _ => SetOutcome.trueOk) := by
  unfold set_value
  rw [h]

theorem set_value_noop (st : FWFile) (rt : RecordType) (fn : String) (v : Str)
    (tc : Option Str) (h : findTargetIdx st.lines rt tc = none) :
    set_value st rt fn v tc = (st, SetOutcome.falseNoop) := by
  unfold set_value
  rw [h]

theorem set_value_spec (st : FWFile) (rt : RecordType) (fn : String) (v : Str)
    (tc : Option Str) (pre post : List Str) (l : Str)
    (hlines : st.lines = pre ++ l :: post)
    (hpre : ∀ x ∈ pre, matches_transaction_counter (parse_line x rt) tc = false)
    (hl : matches_transaction_counter (parse_line l rt) tc = true) :
    set_value st rt fn v tc =
      ({ st with lines := pre ++
         (format_line (dictSet (parse_line l rt) fn
           (if fn = "amount" then zfill v 12 else v)) rt ++ bsn) :: post },
       match decimalCents? (if fn = "amount" then zfill v 12 else v) with
       | none => SetOutcome.exn
       | some c =>
         match update_footer (pre ++
             (format_line (dictSet (parse_line l rt) fn
               (if fn = "amount" then zfill v 12 else v)) rt ++ bsn) :: post)
             st.counter c with
         | none => SetOutcome.exn
         | some _ => SetOutcome.trueOk) := by
  have hidx : findTargetIdx st.lines rt tc = some pre.length := by
    rw [hlines]
    exact findTargetIdx_first pre l post rt tc hpre hl
  rw [set_value_found st rt fn v tc pre.length hidx]
  rw [hlines, getD_append_len, set_append_len]

/-- The lines `set_value` persists when a target is found: only the first
matching line is rewritten. -/
theorem set_value_fst (st : FWFile) (rt : RecordType) (fn : String) (v : Str)
    (tc : Option Str) (pre post : List Str) (l : Str)
    (hlines : st.lines = pre ++ l :: post)
    (hpre : ∀ x ∈ pre, matches_transaction_counter (parse_line x rt) tc = false)
    (hl : matches_transaction_counter (parse_line l rt) tc = true) :
    (set_value st rt fn v tc).1 =
      { st with lines := pre ++
        (format_line (dictSet (parse_line l rt) fn
          (if fn = "amount" then zfill v 12 else v)) rt ++ bsn) :: post } := by
  rw [set_value_spec st rt fn v tc pre post l hlines hpre hl]

theorem add_transaction_found (st : FWFile) (cents : Int) (cur : Str)
    (fi : Nat) (fd : Data) (h : find_footer st.lines = some (fi, fd)) :
    add_transaction st cents cur =
      (match update_footer
          (insertAt fi (format_line (newTransactionData (st.counter + 1) cents
            cur) TRANSACTION ++ bsn) st.lines) (st.counter + 1) cents with
       | none => (st, AddOutcome.exn)
       | some lines2 =>
         ({ lines := lines2, counter := st.counter + 1 },
           AddOutcome.success)) := by
  unfold add_transaction
  rw [h]

theorem add_transaction_nofooter (st : FWFile) (cents : Int) (cur : Str)
    (h : find_footer st.lines = none) :
    add_transaction st cents cur = (st, AddOutcome.noFooter) := by
  unfold add_transaction
  rw [h]

theorem update_footer_found (lines : List Str) (count : Nat) (cents : Int)
    (i : Nat) (fd : Data) (h : find_footer lines = some (i, fd)) :
    update_footer lines count cents =
      (match strToInt? (dictGetD (dictSet fd "total_count"
          (zfill (natToStr count) 6)) "control_sum" []) with
       | none => none
       | some cur =>
         some (lines.set i (format_line (dictSet (dictSet fd "total_count"
           (zfill (natToStr count) 6)) "control_sum"
           (zfill (intToStr (cur + cents)) 12)) FOOTER ++ bsn))) := by
  unfold update_footer
  rw [h]

theorem update_footer_spec (lines : List Str) (count : Nat) (cents : Int)
    (i : Nat) (fd : Data) (h : find_footer lines = some (i, fd)) (s : Int)
    (hs : strToInt? (dictGetD (dictSet fd "total_count"
      (zfill (natToStr count) 6)) "control_sum" []) = some s) :
    update_footer lines count cents =
      some (lines.set i (format_line (dictSet (dictSet fd "total_count"
        (zfill (natToStr count) 6)) "control_sum"
        (zfill (intToStr (s + cents)) 12)) FOOTER ++ bsn)) := by
  rw [update_footer_found lines count cents i fd h, hs]

/-! ## The lines written by `add_transaction` -/

theorem newFooterLine_def (fd : Data) (count : Nat) (s : Int) :
    newFooterLine fd count s =
      format_line (dictSet (dictSet fd "total_count"
        (zfill (natToStr count) 6)) "control_sum"
        (zfill (intToStr s) 12)) FOOTER ++ bsn := rfl

theorem zfill_zfill (s : Str) (w : Nat) : zfill (zfill s w) w = zfill s w :=
  zfill_of_le _ _ (by rw [zfill_length]; omega)

theorem ljust_zfill (s : Str) (w : Nat) : ljust (zfill s w) w = zfill s w :=
  ljust_of_le _ _ (by rw [zfill_length]; omega)

theorem pyStrip_zfill_intToStr (i : Int) (w : Nat) :
    pyStrip (zfill (intToStr i) w) = zfill (intToStr i) w :=
  pyStrip_of_noWS _ (noWS_zfill_intToStr i w)

theorem pyStrip_zfill_natToStr (n w : Nat) :
    pyStrip (zfill (natToStr n) w) = zfill (natToStr n) w := by
  rw [← intToStr_ofNat]
  exact pyStrip_zfill_intToStr _ _

theorem zfill_natToStr_length (n w : Nat) (hw : 0 < w) (h : n < 10 ^ w) :
    (zfill (natToStr n) w).length = w := by
  rw [← intToStr_ofNat]
  apply zfill_intToStr_length _ w hw
  · have : (0 : Int) < 10 ^ (w - 1) := by positivity
    omega
  · have hc : ((10 ^ w : Nat) : Int) = (10 : Int) ^ w := by push_cast; ring
    omega

theorem format_newTransactionData (c : Nat) (cents : Int) (cur : Str) :
    format_line (newTransactionData c cents cur) TRANSACTION =
      ['0', '2'] ++
      (ljust (zfill (natToStr c) 6) 6 ++
      (zfill (zfill (intToStr cents) 12) 12 ++
      (ljust cur 3 ++
      (ljust (List.replicate 95 ' ') 95 ++ [])))) := rfl

theorem newTxnLine_eq (c : Nat) (cents : Int) (cur : Str) :
    newTxnLine c cents cur =
      ['0', '2'] ++
      (zfill (natToStr c) 6 ++
      (zfill (intToStr cents) 12 ++
      (ljust cur 3 ++
      (List.replicate 95 ' ' ++ bsn)))) := by
  unfold newTxnLine
  rw [format_newTransactionData, zfill_zfill, ljust_zfill,
    ljust_of_le (List.replicate 95 ' ') 95 (by simp)]
  simp [List.append_assoc]

theorem take2_append (u v : Str) (h : u.length = 2) : (u ++ v).take 2 = u :=
  List.take_left' h

theorem newTxnLine_take2 (c : Nat) (cents : Int) (cur : Str) :
    (newTxnLine c cents cur).take 2 = ['0', '2'] := by
  rw [newTxnLine_eq]
  exact take2_append _ _ rfl

theorem pySlice02 (x : Str) : pySlice x 0 2 = x.take 2 := by
  unfold pySlice
  rw [List.drop_zero]

theorem startsWith02_newTxnLine (c : Nat) (cents : Int) (cur : Str) :
    startsWith02 (newTxnLine c cents cur) = true := by
  simp [startsWith02, newTxnLine_take2]

theorem isFooterLine_newTxnLine (c : Nat) (cents : Int) (cur : Str) :
    isFooterLine (newTxnLine c cents cur) = false := by
  simp [isFooterLine, pySlice02, newTxnLine_take2]
  decide

theorem updFooterData_control_sum (fd : Data) (count : Nat) (s : Int) :
    dictGetD (updFooterData fd count s) "control_sum" [] =
      zfill (intToStr s) 12 :=
  dictGetD_set_same ..

theorem updFooterData_total_count (fd : Data) (count : Nat) (s : Int) :
    dictGetD (updFooterData fd count s) "total_count" [] =
      zfill (natToStr count) 6 := by
  unfold updFooterData
  rw [dictGetD_set_other _ _ _ _ _ (by decide)]
  exact dictGetD_set_same ..

theorem updFooterData_field_id (fd : Data) (count : Nat) (s : Int) :
    dictGetD (updFooterData fd count s) "field_id" [] =
      dictGetD fd "field_id" [] := by
  unfold updFooterData
  rw [dictGetD_set_other _ _ _ _ _ (by decide),
    dictGetD_set_other _ _ _ _ _ (by decide)]

theorem updFooterData_reserved (fd : Data) (count : Nat) (s : Int) :
    dictGetD (updFooterData fd count s) "reserved" [] =
      dictGetD fd "reserved" [] := by
  unfold updFooterData
  rw [dictGetD_set_other _ _ _ _ _ (by decide),
    dictGetD_set_other _ _ _ _ _ (by decide)]

theorem parse_footer_field_id (f : Str) (hf : isFooterLine f = true) :
    dictGetD (parse_line f FOOTER) "field_id" [] = ['0', '3'] := by
  have : dictGetD (parse_line f FOOTER) "field_id" [] =
      pyStrip (pySlice f 0 2) := rfl
  rw [this]
  unfold isFooterLine at hf
  exact decide_eq_true_iff.mp hf

theorem parse_footer_reserved (f : Str) :
    dictGetD (parse_line f FOOTER) "reserved" [] =
      pyStrip (pySlice f 20 118) := rfl

theorem newFooterLine_parse_eq (f : Str) (hf : isFooterLine f = true)
    (count : Nat) (s : Int) :
    newFooterLine (parse_line f FOOTER) count s =
      ['0', '3'] ++
      (zfill (natToStr count) 6 ++
      (zfill (intToStr s) 12 ++
      (ljust (pyStrip (pySlice f 20 118)) 98 ++ bsn))) := by
  unfold newFooterLine
  rw [format_data_FOOTER, updFooterData_control_sum, updFooterData_total_count,
    updFooterData_field_id, updFooterData_reserved, parse_footer_field_id f hf,
    parse_footer_reserved, ljust_zfill, ljust_zfill,
    ljust_of_le _ _ (by decide)]
  simp [List.append_assoc]

theorem newFooterLine_take2 (f : Str) (hf : isFooterLine f = true)
    (count : Nat) (s : Int) :
    (newFooterLine (parse_line f FOOTER) count s).take 2 = ['0', '3'] := by
  rw [newFooterLine_parse_eq f hf count s]
  exact take2_append _ _ rfl

theorem isFooterLine_newFooterLine (f : Str) (hf : isFooterLine f = true)
    (count : Nat) (s : Int) :
    isFooterLine (newFooterLine (parse_line f FOOTER) count s) = true := by
  simp [isFooterLine, pySlice02, newFooterLine_take2 f hf count s]
  decide

theorem startsWith02_newFooterLine (f : Str) (hf : isFooterLine f = true)
    (count : Nat) (s : Int) :
    startsWith02 (newFooterLine (parse_line f FOOTER) count s) = false := by
  simp [startsWith02, newFooterLine_take2 f hf count s]

theorem startsWith02_footer (f : Str) (hf : isFooterLine f = true) :
    startsWith02 f = false := by
  simp [startsWith02, isFooterLine_take2 f hf]

/-- Re-parsing the rewritten footer recovers its three numeric fields
verbatim (given they fit their widths) and the stripped reserved bytes. -/
theorem parse_newFooterLine (f : Str) (hf : isFooterLine f = true)
    (count : Nat) (s : Int)
    (h6 : (zfill (natToStr count) 6).length = 6)
    (h12 : (zfill (intToStr s) 12).length = 12) :
    parse_line (newFooterLine (parse_line f FOOTER) count s) FOOTER =
      [("type", typeName FOOTER), ("field_id", ['0', '3']),
       ("total_count", zfill (natToStr count) 6),
       ("control_sum", zfill (intToStr s) 12),
       ("reserved", pyStrip (pySlice f 20 118))] := by
  rw [newFooterLine_parse_eq f hf count s,
    parse_chunks_FOOTER ['0', '3'] _ _ _ bsn rfl h6 h12
      (chunk_len_ljust _ 98 (pyStrip_pySlice_length_le f 20 118)),
    pyStrip_ljust_pyStrip, pyStrip_zfill_natToStr, pyStrip_zfill_intToStr]
  rfl

theorem add_transaction_step (pre : List Str) (f : Str) (st : FWFile)
    (cents : Int) (cur : Str) (s : Int)
    (hlines : st.lines = pre ++ [f]) (hfoot : isFooterLine f = true)
    (hsum : strToInt? (dictGetD (parse_line f FOOTER) "control_sum" []) =
      some s) :
    add_transaction st cents cur =
      (⟨pre ++ newTxnLine (st.counter + 1) cents cur ::
          [newFooterLine (parse_line f FOOTER) (st.counter + 1) (s + cents)],
        st.counter + 1⟩, AddOutcome.success) := by
  have hff : find_footer st.lines = some (pre.length, parse_line f FOOTER) := by
    rw [hlines]
    exact find_footer_append_last pre f hfoot
  rw [add_transaction_found st cents cur pre.length (parse_line f FOOTER) hff,
    hlines]
  have hins : insertAt pre.length
      (format_line (newTransactionData (st.counter + 1) cents cur) TRANSACTION
        ++ bsn) (pre ++ [f]) =
      pre ++ newTxnLine (st.counter + 1) cents cur :: [f] :=
    insertAt_append_len pre [] f _
  rw [hins]
  have hff2 : find_footer
      (pre ++ newTxnLine (st.counter + 1) cents cur :: [f]) =
      some (pre.length + 1, parse_line f FOOTER) := by
    have h := find_footer_append_last
      (pre ++ [newTxnLine (st.counter + 1) cents cur]) f hfoot
    simpa [List.append_assoc] using h
  have hs2 : strToInt? (dictGetD (dictSet (parse_line f FOOTER) "total_count"
      (zfill (natToStr (st.counter + 1)) 6)) "control_sum" []) = some s := by
    rw [dictGetD_set_other _ _ _ _ _ (by decide)]
    exact hsum
  rw [update_footer_spec _ (st.counter + 1) cents (pre.length + 1)
    (parse_line f FOOTER) hff2 s hs2]
  have hset : (pre ++ newTxnLine (st.counter + 1) cents cur :: [f]).set
      (pre.length + 1)
      (format_line (dictSet (dictSet (parse_line f FOOTER) "total_count"
        (zfill (natToStr (st.counter + 1)) 6)) "control_sum"
        (zfill (intToStr (s + cents)) 12)) FOOTER ++ bsn) =
      pre ++ newTxnLine (st.counter + 1) cents cur ::
        [newFooterLine (parse_line f FOOTER) (st.counter + 1) (s + cents)] := by
    have h := set_append_len (pre ++ [newTxnLine (st.counter + 1) cents cur])
      [] f (newFooterLine (parse_line f FOOTER) (st.counter + 1) (s + cents))
    rw [newFooterLine_def]
    simpa [List.append_assoc] using h
  rw [hset]

/-! ## The footer-consistency invariant -/

theorem counter_after_step (pre : List Str) (f : Str) (c c2 : Nat)
    (cents : Int) (cur : Str) (s : Int) (hf : isFooterLine f = true) :
    initialize_transaction_counter (pre ++ newTxnLine c cents cur ::
        [newFooterLine (parse_line f FOOTER) c2 s]) =
      initialize_transaction_counter (pre ++ [f]) + 1 := by
  unfold initialize_transaction_counter
  rw [List.filter_append, List.filter_append, List.filter_cons,
    List.filter_cons, List.filter_cons]
  simp [startsWith02_newTxnLine, startsWith02_newFooterLine f hf,
    startsWith02_footer f hf]

theorem good_step (st : FWFile) (s cents : Int) (cur : Str)
    (hg : GoodState st s) (hcb : st.counter + 1 < 10 ^ 6)
    (hs0 : 0 ≤ s) (hc0 : 0 ≤ cents) (hhi : s + cents < 10 ^ 12) :
    (add_transaction st cents cur).2 = AddOutcome.success ∧
      GoodState (add_transaction st cents cur).1 (s + cents) ∧
      (add_transaction st cents cur).1.counter = st.counter + 1 := by
  obtain ⟨pre, f, hl, hf, hcs, htc, hctr⟩ := hg
  rw [add_transaction_step pre f st cents cur s hl hf hcs]
  have h6 : (zfill (natToStr (st.counter + 1)) 6).length = 6 :=
    zfill_natToStr_length _ 6 (by norm_num) (by norm_num at hcb ⊢; omega)
  have h12 : (zfill (intToStr (s + cents)) 12).length = 12 := by
    apply zfill_intToStr_length _ 12 (by norm_num)
    · have : (0 : Int) < 10 ^ (12 - 1) := by positivity
      omega
    · exact hhi
  have hparse := parse_newFooterLine f hf (st.counter + 1) (s + cents) h6 h12
  have hcnt := counter_after_step pre f (st.counter + 1) (st.counter + 1)
    cents cur (s + cents) hf
  refine ⟨rfl, ?_, rfl⟩
  refine ⟨pre ++ [newTxnLine (st.counter + 1) cents cur],
    newFooterLine (parse_line f FOOTER) (st.counter + 1) (s + cents),
    by simp, isFooterLine_newFooterLine f hf _ _, ?_, ?_, ?_⟩
  · have hv : dictGetD (parse_line (newFooterLine (parse_line f FOOTER)
        (st.counter + 1) (s + cents)) FOOTER) "control_sum" [] =
        zfill (intToStr (s + cents)) 12 := by
      rw [hparse]
      rfl
    rw [hv]
    exact strToInt?_zfill_intToStr _ _
  · have hv : dictGetD (parse_line (newFooterLine (parse_line f FOOTER)
        (st.counter + 1) (s + cents)) FOOTER) "total_count" [] =
        zfill (natToStr (st.counter + 1)) 6 := by
      rw [hparse]
      rfl
    dsimp only
    rw [hv, ← intToStr_ofNat, strToInt?_zfill_intToStr, hcnt, ← hl, ← hctr]
  · dsimp only
    rw [hcnt, ← hl, ← hctr]

theorem opsSum_cons (op : Int × Str) (rest : List (Int × Str)) :
    opsSum (op :: rest) = op.1 + opsSum rest := by
  simp [opsSum]

theorem opsSum_nonneg (ops : List (Int × Str))
    (h : ∀ op ∈ ops, 0 ≤ op.1) : 0 ≤ opsSum ops := by
  induction ops with
  | nil => simp [opsSum]
  | cons op rest ih =>
    rw [opsSum_cons]
    have h1 := h op (by simp)
    have h2 := ih (fun o ho => h o (by simp [ho]))
    omega

theorem addMany_good : ∀ (ops : List (Int × Str)) (st : FWFile) (s : Int),
    GoodState st s → st.counter + ops.length < 10 ^ 6 → 0 ≤ s →
    (∀ op ∈ ops, 0 ≤ op.1) → s + opsSum ops < 10 ^ 12 →
    GoodState (addMany st ops) (s + opsSum ops) ∧
      (addMany st ops).counter = st.counter + ops.length ∧
      addsSucceed st ops := by
  intro ops
  induction ops with
  | nil =>
    intro st s hg _ _ _ _
    refine ⟨?_, by simp [addMany], trivial⟩
    simpa [addMany, opsSum] using hg
  | cons op rest ih =>
    intro st s hg hcb hs0 hnn hhi
    have hop0 : 0 ≤ op.1 := hnn op (by simp)
    have hrest0 : 0 ≤ opsSum rest :=
      opsSum_nonneg rest (fun o ho => hnn o (by simp [ho]))
    rw [opsSum_cons] at hhi
    have hhi1 : s + op.1 < 10 ^ 12 := by omega
    obtain ⟨hsucc, hg', hctr'⟩ :=
      good_step st s op.1 op.2 hg (by simp at hcb; omega) hs0 hop0 hhi1
    have hrec := ih (add_transaction st op.1 op.2).1 (s + op.1) hg'
      (by rw [hctr']; simp at hcb ⊢; omega) (by omega)
      (fun o ho => hnn o (by simp [ho])) (by omega)
    refine ⟨?_, ?_, hsucc, hrec.2.2⟩
    · have : addMany st (op :: rest) =
          addMany (add_transaction st op.1 op.2).1 rest := rfl
      rw [this, opsSum_cons, show s + (op.1 + opsSum rest) =
        (s + op.1) + opsSum rest from by ring]
      exact hrec.1
    · have : addMany st (op :: rest) =
          addMany (add_transaction st op.1 op.2).1 rest := rfl
      rw [this, hrec.2.1, hctr']
      simp
      omega

/-! ## Claims -/

/-- C1: the claim says `addTransaction(amount, currency)` with a currency
outside {USD, EUR, GBP} fails with InvalidCurrencyCode and leaves the
file unchanged.  The code performs no currency validation on the add
path (its own docstring notwithstanding): on the specification's own
scenario file, `add_transaction(100.00, "XXX")` succeeds, rewrites the
file, and stores the literal currency `XXX` in the new transaction
line. -/
theorem C1_add_accepts_invalid_currency :
    (add_transaction (mkFile exLines) 10000 "XXX".toList).2 =
      AddOutcome.success ∧
    (add_transaction (mkFile exLines) 10000 "XXX".toList).1.lines ≠ exLines ∧
    pySlice ((add_transaction (mkFile exLines) 10000
      "XXX".toList).1.lines.getD 2 []) 20 23 = "XXX".toList := by
  refine ⟨rfl, ?_, rfl⟩
  decide

/-- C2 counterexample: on a file whose only transaction carries the
on-disk counter `000005`, the claim (highest existing counter plus one,
i.e. `000006`) fails — the code assigns `000002`, the cached count of
`02`-lines plus one. -/
theorem C2_counterexample :
    pySlice (gapTxn) 2 8 = "000005".toList ∧
    pySlice ((add_transaction (mkFile gapLines) 5000
      "EUR".toList).1.lines.getD 2 []) 2 8 = "000002".toList ∧
    "000002".toList ≠ "000006".toList := by
  refine ⟨rfl, rfl, by decide⟩

/-- C2 amended: the counter assigned to the new transaction is the cached
instance counter plus one, where the cache is initialised at construction
to the number of lines starting with `02` (a parse-order count, not the
maximum on-disk counter), and the new transaction's counter field is that
number zero-filled to six digits. -/
theorem C2_count_based_counter (lines pre : List Str) (f : Str) (cents : Int)
    (cur : Str) (s : Int) (hlines : lines = pre ++ [f])
    (hf : isFooterLine f = true)
    (hsum : strToInt? (dictGetD (parse_line f FOOTER) "control_sum" []) =
      some s) :
    (mkFile lines).counter = initialize_transaction_counter lines ∧
    add_transaction (mkFile lines) cents cur =
      (⟨pre ++ newTxnLine (initialize_transaction_counter lines + 1) cents
          cur :: [newFooterLine (parse_line f FOOTER)
            (initialize_transaction_counter lines + 1) (s + cents)],
        initialize_transaction_counter lines + 1⟩, AddOutcome.success) ∧
    dictGetD (newTransactionData (initialize_transaction_counter lines + 1)
        cents cur) "counter" [] =
      zfill (natToStr (initialize_transaction_counter lines + 1)) 6 := by
  refine ⟨rfl, ?_, rfl⟩
  exact add_transaction_step pre f (mkFile lines) cents cur s
    (by rw [show (mkFile lines).lines = lines from rfl, hlines]) hf hsum

/-- C2 amended witness at the gap file: the assigned counter is count
plus one. -/
theorem C2_count_based_counter_witness :
    gapLines = [exHeader, gapTxn] ++ [exFooter] ∧
    isFooterLine exFooter = true ∧
    strToInt? (dictGetD (parse_line exFooter FOOTER) "control_sum" []) =
      some 12345 ∧
    ((mkFile gapLines).counter = initialize_transaction_counter gapLines ∧
     add_transaction (mkFile gapLines) 5000 "EUR".toList =
       (⟨[exHeader, gapTxn] ++ newTxnLine (initialize_transaction_counter
           gapLines + 1) 5000 "EUR".toList ::
           [newFooterLine (parse_line exFooter FOOTER)
             (initialize_transaction_counter gapLines + 1) (12345 + 5000)],
         initialize_transaction_counter gapLines + 1⟩, AddOutcome.success) ∧
     dictGetD (newTransactionData (initialize_transaction_counter gapLines
         + 1) 5000 "EUR".toList) "counter" [] =
       zfill (natToStr (initialize_transaction_counter gapLines + 1)) 6) :=
  ⟨rfl, by decide, by decide,
    C2_count_based_counter gapLines [exHeader, gapTxn] exFooter 5000
      "EUR".toList 12345 rfl (by decide) (by decide)⟩

/-- C3 counterexample: a 120-character TRANSACTION line accepted verbatim
by the read path, whose amount field is space-padded.  Its parse does not
round-trip: formatting zero-fills the stripped amount, so re-parsing
yields `000000000123` where the record held `123` — and the difference is
in the amount field, not in the reserved-field whitespace the claim
excuses. -/
theorem C3_counterexample :
    (process_content [spacedAmountTxn] 0).isOk = true ∧
    parse_line (format_line (parse_line spacedAmountTxn TRANSACTION)
        TRANSACTION) TRANSACTION ≠ parse_line spacedAmountTxn TRANSACTION ∧
    dictGetD (parse_line spacedAmountTxn TRANSACTION) "amount" [] =
      "123".toList ∧
    dictGetD (parse_line (format_line (parse_line spacedAmountTxn
        TRANSACTION) TRANSACTION) TRANSACTION) "amount" [] =
      "000000000123".toList := by
  refine ⟨rfl, by decide, rfl, rfl⟩

/-- C3 amended: the round-trip law holds for every HEADER and FOOTER
record, and for a TRANSACTION record exactly when its amount field value
fills the full 12-character field (so that zero-filling is the
identity); trailing whitespace inside any field collapses as the claim
already allows. -/
theorem C3_roundtrip (line : Str) (rt : RecordType)
    (hamt : rt = TRANSACTION → (pyStrip (pySlice line 8 20)).length = 12) :
    parse_line (format_line (parse_line line rt) rt) rt =
      parse_line line rt := by
  cases rt with
  | HEADER => exact roundtrip_HEADER line
  | TRANSACTION => exact roundtrip_TRANSACTION line (hamt rfl)
  | FOOTER => exact roundtrip_FOOTER line

/-- C3 amended witness: a dense transaction line round-trips. -/
theorem C3_roundtrip_witness :
    ((TRANSACTION = TRANSACTION →
      (pyStrip (pySlice denseTxn 8 20)).length = 12) ∧
     parse_line (format_line (parse_line denseTxn TRANSACTION) TRANSACTION)
       TRANSACTION = parse_line denseTxn TRANSACTION) :=
  ⟨fun _ => by decide,
   C3_roundtrip denseTxn TRANSACTION (fun _ => by decide)⟩

/-- C4 counterexample: the formatted line of the scenario's new
transaction has length 118, not the claimed `recordWidth` 120 (the field
descriptors end at offset 118; callers separately append two literal
characters); moreover an overlong text value is not truncated — a
50-character name yields a 140-character HEADER line. -/
theorem C4_counterexample :
    (format_line (newTransactionData 2 5000 "EUR".toList)
      TRANSACTION).length = 118 ∧
    (118 : Nat) ≠ 120 ∧
    (format_line [("name", List.replicate 50 'a')] HEADER).length = 140 := by
  refine ⟨by decide, by decide, by decide⟩

/-- C4 amended: the length of a formatted line is the sum, in descriptor
order, of `max(fieldWidth, valueLength)` over the kind's fields: numeric
amounts are zero-padded on the left and text fields space-padded on the
right, but nothing is truncated, so the total is the sum of the field
widths — 118, not 120 — exactly when every value fits its field. -/
theorem C4_format_length (d : Data) (rt : RecordType) :
    (format_line d rt).length =
      ((FIELD_DEFINITIONS rt).map
        (fun f => max (f.2.2 - f.2.1) (dictGetD d f.1 []).length)).sum := by
  cases rt <;>
    simp [format_line, FIELD_DEFINITIONS, ljust_length, zfill_length]

theorem goodState_footer_obs (st : FWFile) (s : Int) (hg : GoodState st s) :
    footerControlSum? st.lines = some s ∧
    footerTotalCount? st.lines =
      some (initialize_transaction_counter st.lines : Int) := by
  obtain ⟨pre, f, hl, hf, hcs, htc, _⟩ := hg
  rw [hl] at htc
  constructor
  · rw [hl]
    unfold footerControlSum?
    rw [find_footer_append_last pre f hf]
    simpa using hcs
  · rw [hl]
    unfold footerTotalCount?
    rw [find_footer_append_last pre f hf]
    simpa using htc

/-- C5: after any batch of `addTransaction(amount_i, currency_i)` calls on
a well-formed file (footer last, its numeric fields parseable and
consistent with the transaction count, counter cache in sync) whose
counts and sums stay within their 6- and 12-digit fields, every call
succeeds, the footer's total count equals the number of TRANSACTION
(`02`) lines, and the footer's control sum equals the previous control
sum plus the sum of the added amounts in minor units. -/
theorem C5_footer_consistency (st : FWFile) (s : Int) (ops : List (Int × Str))
    (hg : GoodState st s) (hcb : st.counter + ops.length < 10 ^ 6)
    (hs0 : 0 ≤ s) (hnn : ∀ op ∈ ops, 0 ≤ op.1)
    (hhi : s + opsSum ops < 10 ^ 12) :
    addsSucceed st ops ∧
    footerControlSum? st.lines = some s ∧
    footerTotalCount? (addMany st ops).lines =
      some (initialize_transaction_counter (addMany st ops).lines : Int) ∧
    footerControlSum? (addMany st ops).lines = some (s + opsSum ops) := by
  obtain ⟨hg', hctr, hsucc⟩ := addMany_good ops st s hg hcb hs0 hnn hhi
  obtain ⟨hcs0, _⟩ := goodState_footer_obs st s hg
  obtain ⟨hcs1, htc1⟩ := goodState_footer_obs (addMany st ops) (s + opsSum ops) hg'
  exact ⟨hsucc, hcs0, htc1, hcs1⟩

/-- C5 witness: the scenario file, adding 50.00 EUR. -/
theorem C5_footer_consistency_witness :
    (GoodState (mkFile exLines) 12345 ∧
     (mkFile exLines).counter + [((5000 : Int), "EUR".toList)].length <
       10 ^ 6 ∧
     (0 : Int) ≤ 12345 ∧
     (∀ op ∈ [((5000 : Int), "EUR".toList)], 0 ≤ op.1) ∧
     12345 + opsSum [((5000 : Int), "EUR".toList)] < 10 ^ 12) ∧
    (addsSucceed (mkFile exLines) [((5000 : Int), "EUR".toList)] ∧
     footerControlSum? (mkFile exLines).lines = some 12345 ∧
     footerTotalCount? (addMany (mkFile exLines)
         [((5000 : Int), "EUR".toList)]).lines =
       some (initialize_transaction_counter (addMany (mkFile exLines)
         [((5000 : Int), "EUR".toList)]).lines : Int) ∧
     footerControlSum? (addMany (mkFile exLines)
         [((5000 : Int), "EUR".toList)]).lines =
       some (12345 + opsSum [((5000 : Int), "EUR".toList)])) := by
  have hg : GoodState (mkFile exLines) 12345 :=
    ⟨[exHeader, exTxn], exFooter, rfl, by decide, by decide, by decide, rfl⟩
  refine ⟨⟨hg, by decide, by decide, by decide, by decide⟩, ?_⟩
  exact C5_footer_consistency (mkFile exLines) 12345
    [((5000 : Int), "EUR".toList)] hg (by decide) (by decide) (by decide)
    (by decide)

/-- C6 counterexample: on the scenario file,
`setField(TRANSACTION, "amount", "50", "000001")` stores `000000000050`
(the raw string zero-filled, not the minor-units re-encoding
`000000005000` of the decimal 50), and the persisted footer line is
bit-for-bit the old one — no control-sum delta is persisted at all. -/
theorem C6_counterexample :
    pySlice ((set_value (mkFile exLines) TRANSACTION "amount" "50".toList
      (some "000001".toList)).1.lines.getD 1 []) 8 20 =
      "000000000050".toList ∧
    "000000000050".toList ≠ "000000005000".toList ∧
    (set_value (mkFile exLines) TRANSACTION "amount" "50".toList
      (some "000001".toList)).1.lines.getD 2 [] = exFooter := by
  refine ⟨rfl, by decide, rfl⟩

/-- C6 amended: `setField` on `amount` zero-fills the raw new value to 12
characters with no decimal reinterpretation, rewrites only the targeted
line, and persists no footer change whatsoever: the lines after the
target — the footer included — are unchanged in the written output (the
in-memory footer recomputation happens after the write and is
discarded), and the cached counter is untouched. -/
theorem C6_amount_raw_zfill (st : FWFile) (pre post : List Str) (l : Str)
    (v : Str) (tc : Option Str) (hlines : st.lines = pre ++ l :: post)
    (hpre : ∀ x ∈ pre,
      matches_transaction_counter (parse_line x TRANSACTION) tc = false)
    (hl : matches_transaction_counter (parse_line l TRANSACTION) tc = true) :
    (set_value st TRANSACTION "amount" v tc).1.lines =
      pre ++ (format_line (dictSet (parse_line l TRANSACTION) "amount"
        (zfill v 12)) TRANSACTION ++ bsn) :: post ∧
    (set_value st TRANSACTION "amount" v tc).1.counter = st.counter := by
  have h := set_value_fst st TRANSACTION "amount" v tc pre post l hlines
    hpre hl
  rw [h]
  constructor
  · simp
  · rfl

/-- C6 amended witness on the scenario file. -/
theorem C6_amount_raw_zfill_witness :
    ((mkFile exLines).lines = [exHeader] ++ exTxn :: [exFooter] ∧
     (∀ x ∈ [exHeader], matches_transaction_counter
       (parse_line x TRANSACTION) (some "000001".toList) = false) ∧
     matches_transaction_counter (parse_line exTxn TRANSACTION)
       (some "000001".toList) = true) ∧
    ((set_value (mkFile exLines) TRANSACTION "amount" "50".toList
        (some "000001".toList)).1.lines =
      [exHeader] ++ (format_line (dictSet (parse_line exTxn TRANSACTION)
        "amount" (zfill "50".toList 12)) TRANSACTION ++ bsn) :: [exFooter] ∧
     (set_value (mkFile exLines) TRANSACTION "amount" "50".toList
       (some "000001".toList)).1.counter = (mkFile exLines).counter) :=
  ⟨⟨rfl, by decide, by decide⟩,
   C6_amount_raw_zfill (mkFile exLines) [exHeader] [exFooter] exTxn
     "50".toList (some "000001".toList) rfl (by decide) (by decide)⟩

theorem pySlice_take118 (txn : Str) :
    pySlice (txn.take 118) 23 118 = pySlice txn 23 118 := by
  unfold pySlice
  rw [List.drop_take]
  rw [show (118 - 23 : Nat) = 95 from rfl, List.take_take]
  simp

theorem take_chunks3 (c1 c2 c3 R : Str) (h1 : c1.length = 2)
    (h2 : c2.length = 6) (h3 : c3.length = 12) :
    (c1 ++ (c2 ++ (c3 ++ R))).take 20 = c1 ++ (c2 ++ c3) := by
  rw [show (20 : Nat) = c1.length + 18 from by omega, List.take_append,
    show (18 : Nat) = c2.length + 12 from by omega, List.take_append,
    List.take_left' h3]

theorem canon_take20 (txn : Str)
    (hcanon : format_line (parse_line txn TRANSACTION) TRANSACTION =
      txn.take 118) :
    txn.take 20 =
      ljust (pyStrip (pySlice txn 0 2)) 2 ++
      (ljust (pyStrip (pySlice txn 2 8)) 6 ++
       zfill (pyStrip (pySlice txn 8 20)) 12) := by
  have h1 : (ljust (pyStrip (pySlice txn 0 2)) 2).length = 2 :=
    chunk_len_ljust _ 2 (pyStrip_pySlice_length_le txn 0 2)
  have h2 : (ljust (pyStrip (pySlice txn 2 8)) 6).length = 6 :=
    chunk_len_ljust _ 6 (pyStrip_pySlice_length_le txn 2 8)
  have h3 : (zfill (pyStrip (pySlice txn 8 20)) 12).length = 12 := by
    rw [zfill_length]
    have := pyStrip_pySlice_length_le txn 8 20
    omega
  have hF := (format_parse_TRANSACTION txn).symm.trans hcanon
  have hstep : txn.take 20 = (txn.take 118).take 20 := by
    rw [List.take_take]
    norm_num
  rw [hstep, ← hF]
  exact take_chunks3 _ _ _ _ h1 h2 h3

theorem canon_reserved (txn : Str)
    (hcanon : format_line (parse_line txn TRANSACTION) TRANSACTION =
      txn.take 118) :
    ljust (pyStrip (pySlice txn 23 118)) 95 = pySlice txn 23 118 := by
  have h1 : (ljust (pyStrip (pySlice txn 0 2)) 2).length = 2 :=
    chunk_len_ljust _ 2 (pyStrip_pySlice_length_le txn 0 2)
  have h2 : (ljust (pyStrip (pySlice txn 2 8)) 6).length = 6 :=
    chunk_len_ljust _ 6 (pyStrip_pySlice_length_le txn 2 8)
  have h3 : (zfill (pyStrip (pySlice txn 8 20)) 12).length = 12 := by
    rw [zfill_length]
    have := pyStrip_pySlice_length_le txn 8 20
    omega
  have h4 : (ljust (pyStrip (pySlice txn 20 23)) 3).length = 3 :=
    chunk_len_ljust _ 3 (pyStrip_pySlice_length_le txn 20 23)
  have h5 : (ljust (pyStrip (pySlice txn 23 118)) 95).length = 95 :=
    chunk_len_ljust _ 95 (pyStrip_pySlice_length_le txn 23 118)
  have hF := (format_parse_TRANSACTION txn).symm.trans hcanon
  have he5 : pySlice (txn.take 118) 23 118 =
      ljust (pyStrip (pySlice txn 23 118)) 95 := by
    rw [← hF]
    rw [pySlice_append_shift _ _ 23 118 (by omega), h1,
      pySlice_append_shift _ _ 21 116 (by omega), h2,
      pySlice_append_shift _ _ 15 110 (by omega), h3,
      pySlice_append_shift _ _ 3 98 (by omega), h4]
    exact pySlice_chunk _ _ 95 h5
  rw [← he5, pySlice_take118]

/-- The line stored by `set_value` when rewriting the currency of a
byte-canonical transaction line: the first 20 bytes and bytes 23..118
are preserved, the currency bytes become `GBP`, and the final two bytes
are replaced by the literal backslash-`n` pair. -/
theorem set_currency_line (txn : Str) (g : Str) (hg : g.length = 3)
    (hcanon : format_line (parse_line txn TRANSACTION) TRANSACTION =
      txn.take 118) :
    format_line (dictSet (parse_line txn TRANSACTION) "currency" g)
        TRANSACTION ++ bsn =
      txn.take 20 ++ (g ++ (pySlice txn 23 118 ++ bsn)) := by
  have hget1 : dictGetD (dictSet (parse_line txn TRANSACTION) "currency" g)
      "field_id" [] = pyStrip (pySlice txn 0 2) := by
    rw [dictGetD_set_other _ _ _ _ _ (by decide)]
    rfl
  have hget2 : dictGetD (dictSet (parse_line txn TRANSACTION) "currency" g)
      "counter" [] = pyStrip (pySlice txn 2 8) := by
    rw [dictGetD_set_other _ _ _ _ _ (by decide)]
    rfl
  have hget3 : dictGetD (dictSet (parse_line txn TRANSACTION) "currency" g)
      "amount" [] = pyStrip (pySlice txn 8 20) := by
    rw [dictGetD_set_other _ _ _ _ _ (by decide)]
    rfl
  have hget4 : dictGetD (dictSet (parse_line txn TRANSACTION) "currency" g)
      "currency" [] = g := dictGetD_set_same ..
  have hget5 : dictGetD (dictSet (parse_line txn TRANSACTION) "currency" g)
      "reserved" [] = pyStrip (pySlice txn 23 118) := by
    rw [dictGetD_set_other _ _ _ _ _ (by decide)]
    rfl
  rw [format_data_TRANSACTION, hget1, hget2, hget3, hget4, hget5,
    ljust_of_le g 3 (by omega), canon_reserved txn hcanon,
    canon_take20 txn hcanon]
  simp [List.append_assoc]

/-- C7 counterexample: on the specification's scenario file,
`setField(TRANSACTION, "currency", "GBP", "000001")` does set the
currency bytes, but it also rewrites the final two bytes of that line
(positions 118..120) from the original padding to a literal backslash
and `n`, so not every other byte of the line is unchanged. -/
theorem C7_counterexample :
    pySlice ((set_value (mkFile exLines) TRANSACTION "currency"
      "GBP".toList (some "000001".toList)).1.lines.getD 1 []) 20 23 =
      "GBP".toList ∧
    ((set_value (mkFile exLines) TRANSACTION "currency" "GBP".toList
      (some "000001".toList)).1.lines.getD 1 []).drop 23 ≠
      exTxn.drop 23 := by
  refine ⟨rfl, by decide⟩

/-- C7 amended: on a well-formed file (the targeted transaction line is
byte-canonical and the lines before it do not match the counter), the
call changes the currency bytes 20..23 to `GBP` and the final two bytes
118..120 to a literal backslash-`n`; bytes 0..20 and 23..118 of that
line and every other line — the footer included — are unchanged in the
persisted output, and the call then raises (decimal-parsing `GBP`)
after the write. -/
theorem C7_set_currency (st : FWFile) (pre post : List Str) (txn : Str)
    (hlines : st.lines = pre ++ txn :: post)
    (hpre : ∀ x ∈ pre, matches_transaction_counter (parse_line x TRANSACTION)
      (some "000001".toList) = false)
    (hmatch : matches_transaction_counter (parse_line txn TRANSACTION)
      (some "000001".toList) = true)
    (hcanon : format_line (parse_line txn TRANSACTION) TRANSACTION =
      txn.take 118) :
    (set_value st TRANSACTION "currency" "GBP".toList
      (some "000001".toList)).1.lines =
      pre ++ (txn.take 20 ++ ("GBP".toList ++ (pySlice txn 23 118 ++ bsn)))
        :: post ∧
    (set_value st TRANSACTION "currency" "GBP".toList
      (some "000001".toList)).2 = SetOutcome.exn := by
  constructor
  · have h := set_value_fst st TRANSACTION "currency" "GBP".toList
      (some "000001".toList) pre post txn hlines hpre hmatch
    rw [h]
    show pre ++ (format_line (dictSet (parse_line txn TRANSACTION)
      "currency" (if ("currency" : String) = "amount" then
        zfill "GBP".toList 12 else "GBP".toList)) TRANSACTION ++ bsn)
      :: post = _
    rw [if_neg (by decide), set_currency_line txn "GBP".toList rfl hcanon]
  · rw [set_value_spec st TRANSACTION "currency" "GBP".toList
      (some "000001".toList) pre post txn hlines hpre hmatch]
    have hd : decimalCents? (if ("currency" : String) = "amount" then
        zfill "GBP".toList 12 else "GBP".toList) = none := by decide
    rw [hd]

/-- C7 amended witness on the scenario file. -/
theorem C7_set_currency_witness :
    ((mkFile exLines).lines = [exHeader] ++ exTxn :: [exFooter] ∧
     (∀ x ∈ [exHeader], matches_transaction_counter
       (parse_line x TRANSACTION) (some "000001".toList) = false) ∧
     matches_transaction_counter (parse_line exTxn TRANSACTION)
       (some "000001".toList) = true ∧
     format_line (parse_line exTxn TRANSACTION) TRANSACTION =
       exTxn.take 118) ∧
    ((set_value (mkFile exLines) TRANSACTION "currency" "GBP".toList
       (some "000001".toList)).1.lines =
      [exHeader] ++ (exTxn.take 20 ++ ("GBP".toList ++
        (pySlice exTxn 23 118 ++ bsn))) :: [exFooter] ∧
     (set_value (mkFile exLines) TRANSACTION "currency" "GBP".toList
       (some "000001".toList)).2 = SetOutcome.exn) :=
  ⟨⟨rfl, by decide, by decide, by decide⟩,
   C7_set_currency (mkFile exLines) [exHeader] [exFooter] exTxn rfl
     (by decide) (by decide) (by decide)⟩

/-- C8 counterexample: with no transaction counter supplied, the claim
says the target is the first record of the requested kind — here the
FOOTER, the last line.  The code instead rewrites the first line of the
file (the HEADER, reformatted through the FOOTER schema) and leaves the
actual footer untouched. -/
theorem C8_counterexample :
    (set_value (mkFile exLines) FOOTER "reserved" "x".toList
      none).1.lines.getD 2 [] = exFooter ∧
    (set_value (mkFile exLines) FOOTER "reserved" "x".toList
      none).1.lines.getD 0 [] ≠ exHeader := by
  refine ⟨rfl, by decide⟩

/-- C8 amended: `set_value` parses every line as the requested kind and
targets the first line satisfying the counter predicate — when no line
matches it returns the failure result `False` and performs no write;
when a line matches, exactly that line is rewritten, regardless of the
line's actual kind (with no counter the predicate accepts every line, so
the target is the first line of the file). -/
theorem C8_first_match_semantics :
    (∀ (st : FWFile) (rt : RecordType) (fn : String) (v : Str)
       (tc : Option Str),
      (∀ l ∈ st.lines,
        matches_transaction_counter (parse_line l rt) tc = false) →
      set_value st rt fn v tc = (st, SetOutcome.falseNoop)) ∧
    (∀ (st : FWFile) (rt : RecordType) (fn : String) (v : Str)
       (tc : Option Str) (pre post : List Str) (l : Str),
      st.lines = pre ++ l :: post →
      (∀ x ∈ pre,
        matches_transaction_counter (parse_line x rt) tc = false) →
      matches_transaction_counter (parse_line l rt) tc = true →
      (set_value st rt fn v tc).1 =
        { st with lines := pre ++
          (format_line (dictSet (parse_line l rt) fn
            (if fn = "amount" then zfill v 12 else v)) rt ++ bsn) :: post }) :=
  ⟨fun st rt fn v tc h =>
    set_value_noop st rt fn v tc (findTargetIdx_none st.lines rt tc h),
   fun st rt fn v tc pre post l hlines hpre hl =>
    set_value_fst st rt fn v tc pre post l hlines hpre hl⟩

/-- C8 amended witness: a counter matching no line gives a no-op failure;
with no counter the header line is the one rewritten. -/
theorem C8_first_match_semantics_witness :
    ((∀ l ∈ (mkFile exLines).lines, matches_transaction_counter
       (parse_line l TRANSACTION) (some "000009".toList) = false) ∧
     set_value (mkFile exLines) TRANSACTION "currency" "GBP".toList
       (some "000009".toList) = (mkFile exLines, SetOutcome.falseNoop)) ∧
    ((mkFile exLines).lines = [] ++ exHeader :: [exTxn, exFooter] ∧
     matches_transaction_counter (parse_line exHeader FOOTER) none = true ∧
     (set_value (mkFile exLines) FOOTER "reserved" "x".toList none).1 =
       { mkFile exLines with lines := [] ++
         (format_line (dictSet (parse_line exHeader FOOTER) "reserved"
           (if ("reserved" : String) = "amount" then zfill "x".toList 12
            else "x".toList)) FOOTER ++ bsn) :: [exTxn, exFooter] }) :=
  ⟨⟨by decide,
    C8_first_match_semantics.1 (mkFile exLines) TRANSACTION "currency"
      "GBP".toList (some "000009".toList) (by decide)⟩,
   ⟨rfl, rfl,
    C8_first_match_semantics.2 (mkFile exLines) FOOTER "reserved"
      "x".toList none [] [exTxn, exFooter] exHeader rfl (by decide) rfl⟩⟩

/-- C9 counterexample: the read path strips each line before checking its
length, so a 121-character line ending in a space is accepted (its strip
is 120 characters long), refuting "parse fails for any line whose length
is not 120"; symmetrically, the 120-character scenario footer, whose
padding strips away, is rejected with the length error. -/
theorem C9_counterexample :
    (denseTxn ++ [' ']).length = 121 ∧
    (process_content [denseTxn ++ [' ']] 0).isOk = true ∧
    exFooter.length = 120 ∧
    process_content [exFooter] 0 = Except.error ReadErr.invalidLength := by
  refine ⟨by decide, rfl, by decide, rfl⟩

/-- C9 amended: the read path raises the invalid-length error for a line
exactly when the line's stripped form (leading and trailing whitespace
removed) does not have length 120 — the raw line length is not what is
checked, for all three record kinds alike (classification happens only
after the length check). -/
theorem C9_strip_length_check (line : Str) (rest : List Str) (c : Nat)
    (h : (pyStrip line).length ≠ 120) :
    process_content (line :: rest) c = Except.error ReadErr.invalidLength := by
  unfold process_content
  rw [if_pos (by exact h)]

/-- C9 amended witness: the scenario footer line strips to 20 characters
and is rejected. -/
theorem C9_strip_length_check_witness :
    (pyStrip exFooter).length ≠ 120 ∧
    process_content [exFooter] 0 = Except.error ReadErr.invalidLength :=
  ⟨by decide, C9_strip_length_check exFooter [] 0 (by decide)⟩

theorem matches_zfill_congr (d : Data) (t1 t2 : Str)
    (h : zfill t1 6 = zfill t2 6) :
    matches_transaction_counter d (some t1) =
      matches_transaction_counter d (some t2) := by
  show decide (zfill (dictGetD d "counter" []) 6 = zfill t1 6) =
    decide (zfill (dictGetD d "counter" []) 6 = zfill t2 6)
  rw [h]

theorem set_value_tc_congr (st : FWFile) (rt : RecordType) (fn : String)
    (v : Str) (t1 t2 : Str) (h : zfill t1 6 = zfill t2 6) :
    set_value st rt fn v (some t1) = set_value st rt fn v (some t2) := by
  have hidx : findTargetIdx st.lines rt (some t1) =
      findTargetIdx st.lines rt (some t2) := by
    unfold findTargetIdx
    congr 1
    funext line
    exact matches_zfill_congr _ _ _ h
  unfold set_value
  rw [hidx]

/-- C10: the `set_value` target predicate compares the stored counter and
the supplied counter after zero-filling both to six digits — so
counters whose six-digit zero-fills agree (such as `1` and `000001`)
address the same transaction and yield identical results — and with no
counter supplied the predicate accepts every record, making the first
line of the file the target regardless of its actual kind. -/
theorem C10_counter_matching :
    (∀ d : Data, matches_transaction_counter d none = true) ∧
    (∀ (d : Data) (t : Str), matches_transaction_counter d (some t) =
      decide (zfill (dictGetD d "counter" []) 6 = zfill t 6)) ∧
    (∀ (st : FWFile) (rt : RecordType) (fn : String) (v : Str)
       (t1 t2 : Str), zfill t1 6 = zfill t2 6 →
      set_value st rt fn v (some t1) = set_value st rt fn v (some t2)) ∧
    (∀ (st : FWFile) (rt : RecordType) (fn : String) (v : Str) (l0 : Str)
       (rest : List Str), st.lines = l0 :: rest →
      (set_value st rt fn v none).1 = { st with lines :=
        (format_line (dictSet (parse_line l0 rt) fn
          (if fn = "amount" then zfill v 12 else v)) rt ++ bsn) :: rest }) := by
  refine ⟨fun d => rfl, fun d t => rfl, set_value_tc_congr, ?_⟩
  intro st rt fn v l0 rest h
  have hfst := set_value_fst st rt fn v none [] rest l0 (by simpa using h)
    (by simp) rfl
  simpa using hfst

/-- C10 witness: on the scenario file, counters `1` and `000001` give
byte-identical results, and with no counter the header line is the
target even for a FOOTER request. -/
theorem C10_counter_matching_witness :
    (zfill "1".toList 6 = zfill "000001".toList 6 ∧
     set_value (mkFile exLines) TRANSACTION "currency" "GBP".toList
         (some "1".toList) =
       set_value (mkFile exLines) TRANSACTION "currency" "GBP".toList
         (some "000001".toList)) ∧
    ((mkFile exLines).lines = exHeader :: [exTxn, exFooter] ∧
     (set_value (mkFile exLines) FOOTER "reserved" "x".toList none).1 =
       { mkFile exLines with lines :=
         (format_line (dictSet (parse_line exHeader FOOTER) "reserved"
           (if ("reserved" : String) = "amount" then zfill "x".toList 12
            else "x".toList)) FOOTER ++ bsn) :: [exTxn, exFooter] }) :=
  ⟨⟨by decide,
    C10_counter_matching.2.2.1 (mkFile exLines) TRANSACTION "currency"
      "GBP".toList "1".toList "000001".toList (by decide)⟩,
   ⟨rfl,
    C10_counter_matching.2.2.2 (mkFile exLines) FOOTER "reserved"
      "x".toList exHeader [exTxn, exFooter] rfl⟩⟩
